import Mathlib

set_option maxHeartbeats 1000000

/-!
Shallow embedding of the random-walk client/server core (Posko repository).

Conventions used throughout this development:
* C `int32_t` coordinates are modelled as `Int` (the walk only moves in-bounds
  positions by one cell, so 32-bit overflow cannot occur on the modelled paths);
  C `uint32_t`/`uint64_t` counters are modelled as `Nat` with an explicit
  `% 2^32` / `% 2^64` at every operation that can wrap.
* C `double` probabilities are modelled as `ℚ`; the verified claims only
  depend on the order structure of the computed cumulative thresholds, which
  the rational model preserves expression-by-expression.
* C arrays are modelled as `List`s; the length invariants that the C code
  maintains by construction are carried as explicit hypotheses.
* The per-thread RNG (`rw_rng_next01`) is modelled as an arbitrary stream
  `Nat → ℚ` of draws, one per loop iteration, quantified universally.
-/

/-- Position on the 2D grid (`pos_t` from `src/common/types.h`). -/
structure pos_t where
  x : Int
  y : Int
  deriving DecidableEq, Repr

/-- World dimensions (`world_size_t` from `src/common/types.h`). -/
structure world_size_t where
  width : Nat
  height : Nat
  deriving DecidableEq, Repr

/-- World kinds (`world_kinds_t`): wrapping torus or bounded grid with obstacles. -/
inductive world_kinds_t where
  | WORLD_WRAP
  | WORLD_OBSTACLES
  deriving DecidableEq, Repr

/-- The world grid (`world_t` from `src/server/world.h`): kind, size and the
row-major obstacle byte map (byte `1` = blocked modelled as `true`). -/
structure world_t where
  kind : world_kinds_t
  size : world_size_t
  obstacles : List Bool
  deriving DecidableEq, Repr

/-- Number of cells, `world_cell_count` from `world.c`. -/
def world_cell_count (w : world_t) : Nat :=
  w.size.width * w.size.height

/-- Bounds check, `world_in_bounds` from `world.c`. -/
def world_in_bounds (w : world_t) (x y : Int) : Bool :=
  decide (0 ≤ x) && decide (0 ≤ y) &&
  decide (x < (w.size.width : Int)) && decide (y < (w.size.height : Int))

/-- One axis of `world_wrap_pos`: C `%` (truncated remainder) followed by the
`if (r < 0) r += m` fixup, guarded by `m > 0` as in the source. -/
def c_wrap_coord (v : Int) (m : Nat) : Int :=
  if 0 < m then
    let r := Int.tmod v (m : Int)
    if r < 0 then r + (m : Int) else r
  else v

/-- Toroidal wrap, `world_wrap_pos` from `world.c`. -/
def world_wrap_pos (w : world_t) (p : pos_t) : pos_t :=
  { x := c_wrap_coord p.x w.size.width, y := c_wrap_coord p.y w.size.height }

/-- Row-major cell index, `world_index` from `world.c` (`(uint32_t)y * width +
(uint32_t)x`; for the in-bounds arguments the code uses it on, the `Nat`
computation agrees with the 32-bit one). -/
def world_index (w : world_t) (x y : Int) : Nat :=
  y.toNat * w.size.width + x.toNat

/-- Obstacle query by index, `world_is_obstacle_idx`: out-of-range indices are
reported as blocked. -/
def world_is_obstacle_idx (w : world_t) (idx : Nat) : Bool :=
  if world_cell_count w ≤ idx then true else w.obstacles.getD idx false

/-- Obstacle query by coordinates, `world_is_obstacle_xy`: out-of-bounds is
blocked. -/
def world_is_obstacle_xy (w : world_t) (x y : Int) : Bool :=
  if world_in_bounds w x y then world_is_obstacle_idx w (world_index w x y) else true

/-- Set one obstacle cell, `world_set_obstacle` (no-op when out of bounds). -/
def world_set_obstacle (w : world_t) (x y : Int) (value : Bool) : world_t :=
  if world_in_bounds w x y then
    { w with obstacles := w.obstacles.set (world_index w x y) value }
  else w

/-- Move distribution (`move_probs_t` from `types.h`), doubles modelled as `ℚ`. -/
structure move_probs_t where
  p_up : ℚ
  p_down : ℚ
  p_left : ℚ
  p_right : ℚ
  deriving DecidableEq, Repr

/-! Trajectory engine, from the second (current) version of
`src/server/random_walk.c`. -/

/-- Direction choice of one loop iteration of `random_walk_run`: the scaled
draw `r` is compared against the cumulative thresholds `c1 ≤ c2 ≤ c3`. -/
def rw_step_choice (c1 c2 c3 : ℚ) (p : pos_t) (r : ℚ) : pos_t :=
  if r < c1 then { p with y := p.y - 1 }
  else if r < c2 then { p with y := p.y + 1 }
  else if r < c3 then { p with x := p.x - 1 }
  else { p with x := p.x + 1 }

/-- Wrap/bounds/obstacle resolution of one loop iteration of
`random_walk_run`: wrap the candidate in WRAP worlds, then stay in place if
the candidate is out of bounds or blocked. -/
def rw_apply_world (w : world_t) (p next : pos_t) : pos_t :=
  let next1 := if w.kind = world_kinds_t.WORLD_WRAP then world_wrap_pos w next else next
  if world_in_bounds w next1.x next1.y = false then p
  else if world_is_obstacle_xy w next1.x next1.y then p
  else next1

/-- One full iteration of the `random_walk_run` loop body on position `p`
with raw draw `u` (the code computes `r = u * c4` before branching). -/
def rw_next_pos (w : world_t) (c1 c2 c3 c4 : ℚ) (p : pos_t) (u : ℚ) : pos_t :=
  rw_apply_world w p (rw_step_choice c1 c2 c3 p (u * c4))

/-- The `for (step = 1; step <= max_steps; step++)` loop of `random_walk_run`,
returning `(*out_steps, *out_reached_origin, *out_success_leq_k)`. -/
def rw_loop (w : world_t) (c1 c2 c3 c4 : ℚ) (rng : Nat → ℚ) (max_steps : Nat)
    (p : pos_t) (step : Nat) : Nat × Bool × Bool :=
  if h : step ≤ max_steps then
    let p1 := rw_next_pos w c1 c2 c3 c4 p (rng step)
    if p1.x = 0 ∧ p1.y = 0 then (step, true, true)
    else rw_loop w c1 c2 c3 c4 rng max_steps p1 (step + 1)
  else (max_steps, false, false)
termination_by max_steps + 1 - step

/-- The trajectory engine `random_walk_run` from `src/server/random_walk.c`
(second version, lines 252-350). The three `out_*` parameters are returned as
a triple. -/
def random_walk_run (w : world_t) (start : pos_t) (probs : move_probs_t)
    (max_steps : Nat) (rng : Nat → ℚ) : Nat × Bool × Bool :=
  if world_in_bounds w start.x start.y = false then (0, false, false)
  else if world_is_obstacle_xy w start.x start.y then (0, false, false)
  else if start.x = 0 ∧ start.y = 0 then (0, true, true)
  else
    let c1 := probs.p_up
    let c2 := c1 + probs.p_down
    let c3 := c2 + probs.p_left
    let c4 := c3 + probs.p_right
    if c4 ≤ 0 then (max_steps, false, false)
    else rw_loop w c1 c2 c3 c4 rng max_steps start 1

/-- Position of the walker after `k` completed loop iterations (iteration
`k` consumes draw `rng k`, matching the loop's step counter). -/
def rw_trace (w : world_t) (c1 c2 c3 c4 : ℚ) (rng : Nat → ℚ) (start : pos_t) : Nat → pos_t
  | 0 => start
  | k + 1 => rw_next_pos w c1 c2 c3 c4 (rw_trace w c1 c2 c3 c4 rng start k) (rng (k + 1))

/-- Unfolding lemma: if no step in `(k, max_steps]` reaches the origin, the
loop started after `k` completed iterations exhausts the cap. -/
theorem rw_loop_trace_no_hit (w : world_t) (c1 c2 c3 c4 : ℚ) (rng : Nat → ℚ)
    (start : pos_t) (K : Nat) :
    ∀ n k, K - k = n →
      (∀ s, k + 1 ≤ s → s ≤ K →
        ¬ ((rw_trace w c1 c2 c3 c4 rng start s).x = 0 ∧
           (rw_trace w c1 c2 c3 c4 rng start s).y = 0)) →
      rw_loop w c1 c2 c3 c4 rng K (rw_trace w c1 c2 c3 c4 rng start k) (k + 1)
        = (K, false, false) := by
  intro n
  induction n with
  | zero =>
    intro k hk _
    rw [rw_loop]
    have hgt : ¬ (k + 1 ≤ K) := by omega
    rw [dif_neg hgt]
  | succ n ih =>
    intro k hk h
    rw [rw_loop]
    have hstep : k + 1 ≤ K := by omega
    rw [dif_pos hstep]
    have hmiss := h (k + 1) le_rfl hstep
    simp only [rw_trace] at hmiss ⊢
    rw [if_neg hmiss]
    exact ih (k + 1) (by omega) (fun s hs1 hs2 => h s (by omega) hs2)

/-- Unfolding lemma: if step `s` is the first step after `k` that reaches the
origin and `s ≤ max_steps`, the loop returns `(s, true, true)`. -/
theorem rw_loop_trace_hit (w : world_t) (c1 c2 c3 c4 : ℚ) (rng : Nat → ℚ)
    (start : pos_t) (K : Nat) :
    ∀ n k, K - k = n → ∀ s, k < s → s ≤ K →
      ((rw_trace w c1 c2 c3 c4 rng start s).x = 0 ∧
       (rw_trace w c1 c2 c3 c4 rng start s).y = 0) →
      (∀ t, k + 1 ≤ t → t < s →
        ¬ ((rw_trace w c1 c2 c3 c4 rng start t).x = 0 ∧
           (rw_trace w c1 c2 c3 c4 rng start t).y = 0)) →
      rw_loop w c1 c2 c3 c4 rng K (rw_trace w c1 c2 c3 c4 rng start k) (k + 1)
        = (s, true, true) := by
  intro n
  induction n with
  | zero =>
    intro k hk s hks hsK _ _
    omega
  | succ n ih =>
    intro k hk s hks hsK hhit hbefore
    rw [rw_loop]
    have hstep : k + 1 ≤ K := by omega
    rw [dif_pos hstep]
    by_cases heq : k + 1 = s
    · subst heq
      simp only [rw_trace] at hhit ⊢
      rw [if_pos hhit]
    · have hlt : k + 1 < s := by omega
      have hmiss := hbefore (k + 1) le_rfl hlt
      simp only [rw_trace] at hmiss ⊢
      rw [if_neg hmiss]
      exact ih (k + 1) (by omega) s hlt hsK hhit
        (fun t ht1 ht2 => hbefore t (by omega) ht2)

/-- C1: full case analysis of `random_walk_run`, read as the spec's ordered
cases. With `c1..c4` the cumulative thresholds computed by the code: the run
returns `(0, false, false)` for an out-of-bounds or blocked start;
`(0, true, true)` for a valid start at the origin; `(K, false, false)` when
`c4 ≤ 0`, and also when no step in `1..K` reaches the origin; and
`(s, true, true)` when step `s ≤ K` is the first to reach the origin.
Moreover a candidate move that is (after wrapping) out of bounds or blocked
leaves the walker in place — the iteration still consumes its step, as the
trace-indexed statements express. -/
theorem C1_random_walk_run_spec (w : world_t) (start : pos_t) (probs : move_probs_t)
    (K : Nat) (rng : Nat → ℚ) :
    (world_in_bounds w start.x start.y = false ∨
        world_is_obstacle_xy w start.x start.y = true →
      random_walk_run w start probs K rng = (0, false, false))
  ∧ (world_in_bounds w start.x start.y = true →
      world_is_obstacle_xy w start.x start.y = false →
      start.x = 0 ∧ start.y = 0 →
      random_walk_run w start probs K rng = (0, true, true))
  ∧ (world_in_bounds w start.x start.y = true →
      world_is_obstacle_xy w start.x start.y = false →
      ¬ (start.x = 0 ∧ start.y = 0) →
      probs.p_up + probs.p_down + probs.p_left + probs.p_right ≤ 0 →
      random_walk_run w start probs K rng = (K, false, false))
  ∧ (world_in_bounds w start.x start.y = true →
      world_is_obstacle_xy w start.x start.y = false →
      ¬ (start.x = 0 ∧ start.y = 0) →
      0 < probs.p_up + probs.p_down + probs.p_left + probs.p_right →
      (∀ s, 1 ≤ s → s ≤ K →
        ¬ ((rw_trace w probs.p_up (probs.p_up + probs.p_down)
              (probs.p_up + probs.p_down + probs.p_left)
              (probs.p_up + probs.p_down + probs.p_left + probs.p_right)
              rng start s).x = 0 ∧
           (rw_trace w probs.p_up (probs.p_up + probs.p_down)
              (probs.p_up + probs.p_down + probs.p_left)
              (probs.p_up + probs.p_down + probs.p_left + probs.p_right)
              rng start s).y = 0)) →
      random_walk_run w start probs K rng = (K, false, false))
  ∧ (world_in_bounds w start.x start.y = true →
      world_is_obstacle_xy w start.x start.y = false →
      ¬ (start.x = 0 ∧ start.y = 0) →
      0 < probs.p_up + probs.p_down + probs.p_left + probs.p_right →
      ∀ s, 1 ≤ s → s ≤ K →
        ((rw_trace w probs.p_up (probs.p_up + probs.p_down)
            (probs.p_up + probs.p_down + probs.p_left)
            (probs.p_up + probs.p_down + probs.p_left + probs.p_right)
            rng start s).x = 0 ∧
         (rw_trace w probs.p_up (probs.p_up + probs.p_down)
            (probs.p_up + probs.p_down + probs.p_left)
            (probs.p_up + probs.p_down + probs.p_left + probs.p_right)
            rng start s).y = 0) →
        (∀ t, 1 ≤ t → t < s →
          ¬ ((rw_trace w probs.p_up (probs.p_up + probs.p_down)
                (probs.p_up + probs.p_down + probs.p_left)
                (probs.p_up + probs.p_down + probs.p_left + probs.p_right)
                rng start t).x = 0 ∧
             (rw_trace w probs.p_up (probs.p_up + probs.p_down)
                (probs.p_up + probs.p_down + probs.p_left)
                (probs.p_up + probs.p_down + probs.p_left + probs.p_right)
                rng start t).y = 0)) →
        random_walk_run w start probs K rng = (s, true, true))
  ∧ (∀ (c1 c2 c3 c4 : ℚ) (p : pos_t) (u : ℚ),
      (world_in_bounds w
          (if w.kind = world_kinds_t.WORLD_WRAP then
            world_wrap_pos w (rw_step_choice c1 c2 c3 p (u * c4))
          else rw_step_choice c1 c2 c3 p (u * c4)).x
          (if w.kind = world_kinds_t.WORLD_WRAP then
            world_wrap_pos w (rw_step_choice c1 c2 c3 p (u * c4))
          else rw_step_choice c1 c2 c3 p (u * c4)).y = false ∨
       world_is_obstacle_xy w
          (if w.kind = world_kinds_t.WORLD_WRAP then
            world_wrap_pos w (rw_step_choice c1 c2 c3 p (u * c4))
          else rw_step_choice c1 c2 c3 p (u * c4)).x
          (if w.kind = world_kinds_t.WORLD_WRAP then
            world_wrap_pos w (rw_step_choice c1 c2 c3 p (u * c4))
          else rw_step_choice c1 c2 c3 p (u * c4)).y = true) →
      rw_next_pos w c1 c2 c3 c4 p u = p) := by
  refine ⟨?_, ?_, ?_, ?_, ?_, ?_⟩
  · rintro (h | h)
    · simp [random_walk_run, h]
    · by_cases hb : world_in_bounds w start.x start.y = false
      · simp [random_walk_run, hb]
      · simp [random_walk_run, hb, h]
  · intro hb ho horig
    obtain ⟨hx, hy⟩ := horig
    simp only [hx, hy] at hb ho
    simp [random_walk_run, hx, hy, hb, ho]
  · intro hb ho horig hc4
    simp [random_walk_run, hb, ho, horig, hc4]
  · intro hb ho horig hc4 hmiss
    have hres := rw_loop_trace_no_hit w probs.p_up (probs.p_up + probs.p_down)
      (probs.p_up + probs.p_down + probs.p_left)
      (probs.p_up + probs.p_down + probs.p_left + probs.p_right)
      rng start K K 0 (by omega) (fun s hs1 hs2 => hmiss s hs1 hs2)
    simp only [rw_trace] at hres
    simpa [random_walk_run, hb, ho, horig, not_le.mpr hc4] using hres
  · intro hb ho horig hc4 s hs1 hsK hhit hbefore
    have hres := rw_loop_trace_hit w probs.p_up (probs.p_up + probs.p_down)
      (probs.p_up + probs.p_down + probs.p_left)
      (probs.p_up + probs.p_down + probs.p_left + probs.p_right)
      rng start K K 0 (by omega) s (by omega) hsK hhit
      (fun t ht1 ht2 => hbefore t ht1 ht2)
    simp only [rw_trace] at hres
    simpa [random_walk_run, hb, ho, horig, not_le.mpr hc4] using hres
  · intro c1 c2 c3 c4 p u hblocked
    rcases hblocked with h | h
    · simp [rw_next_pos, rw_apply_world, h]
    · by_cases hb : world_in_bounds w
          (if w.kind = world_kinds_t.WORLD_WRAP then
            world_wrap_pos w (rw_step_choice c1 c2 c3 p (u * c4))
          else rw_step_choice c1 c2 c3 p (u * c4)).x
          (if w.kind = world_kinds_t.WORLD_WRAP then
            world_wrap_pos w (rw_step_choice c1 c2 c3 p (u * c4))
          else rw_step_choice c1 c2 c3 p (u * c4)).y = false
      · simp [rw_next_pos, rw_apply_world, hb]
      · simp [rw_next_pos, rw_apply_world, hb, h]

/-- Witness for C1: in a 1×1 WRAP world the start `(5, 0)` is out of bounds,
so the run reports `(0, false, false)`. -/
theorem C1_random_walk_run_spec_witness :
    random_walk_run
      { kind := world_kinds_t.WORLD_WRAP, size := { width := 1, height := 1 },
        obstacles := [false] }
      { x := 5, y := 0 }
      { p_up := 1/4, p_down := 1/4, p_left := 1/4, p_right := 1/4 }
      7 (fun _ => 0) = (0, false, false) :=
  (C1_random_walk_run_spec _ _ _ _ _).1 (Or.inl (by decide))

/-! Aggregate store, from `src/server/results.h` / `results.c` (current
versions). `uint32_t` counters wrap modulo `2^32`, `uint64_t` modulo `2^64`. -/

/-- Modulus of the C `uint32_t` counters. -/
def U32_MOD : Nat := 2 ^ 32

/-- Modulus of the C `uint64_t` counters. -/
def U64_MOD : Nat := 2 ^ 64

/-- Per-tile statistics storage (`results_t`): dimensions, cell count and the
three per-cell arrays. -/
structure results_t where
  size : world_size_t
  cell_count : Nat
  trials : List Nat
  sum_steps : List Nat
  success_leq_k : List Nat
  deriving DecidableEq, Repr

/-- Zero-initialise the storage, `results_init` (fails on a zero dimension,
mirroring the `-1` return; allocation failure is not modelled). -/
def results_init (size : world_size_t) : Option results_t :=
  if size.width = 0 ∨ size.height = 0 then none
  else
    some { size := size
           cell_count := size.width * size.height
           trials := List.replicate (size.width * size.height) 0
           sum_steps := List.replicate (size.width * size.height) 0
           success_leq_k := List.replicate (size.width * size.height) 0 }

/-- Reset all per-tile counters to 0, `results_clear`. -/
def results_clear (r : results_t) : results_t :=
  { r with trials := List.replicate r.cell_count 0
           sum_steps := List.replicate r.cell_count 0
           success_leq_k := List.replicate r.cell_count 0 }

/-- Update one tile, `results_update`: out-of-range `idx` is a no-op;
otherwise `trials[idx]++` always, `sum_steps[idx] += steps` iff
`reached_origin`, `success_leq_k[idx]++` iff the success flag is set. -/
def results_update (r : results_t) (idx steps : Nat)
    (reached_origin success_leq_k : Bool) : results_t :=
  if r.cell_count ≤ idx then r
  else
    { r with
      trials := r.trials.set idx ((r.trials.getD idx 0 + 1) % U32_MOD)
      sum_steps :=
        if reached_origin then
          r.sum_steps.set idx ((r.sum_steps.getD idx 0 + steps) % U64_MOD)
        else r.sum_steps
      success_leq_k :=
        if success_leq_k then
          r.success_leq_k.set idx ((r.success_leq_k.getD idx 0 + 1) % U32_MOD)
        else r.success_leq_k }

/-- NULL-pointer guard of `results_update` (`if (!r) return;`), with the C
pointer modelled as `Option results_t`. -/
def results_update_opt (r : Option results_t) (idx steps : Nat)
    (reached_origin success_leq_k : Bool) : Option results_t :=
  match r with
  | none => none
  | some rr => some (results_update rr idx steps reached_origin success_leq_k)

/-- Getter `results_trials`. -/
def results_trials (r : results_t) : List Nat := r.trials

/-- Getter `results_sum_steps`. -/
def results_sum_steps (r : results_t) : List Nat := r.sum_steps

/-- Getter `results_success_leq_k`. -/
def results_success_leq_k (r : results_t) : List Nat := r.success_leq_k

/-- Getter `results_cell_count`. -/
def results_cell_count (r : results_t) : Nat := r.cell_count

/-- C10: an update at an index beyond `cell_count` is a total no-op — the
aggregate value is returned unchanged — and likewise the NULL-pointer guard
returns the null aggregate unchanged. -/
theorem C10_results_update_out_of_range_noop :
    (∀ (r : results_t) (idx steps : Nat) (a b : Bool), r.cell_count ≤ idx →
      results_update r idx steps a b = r)
  ∧ (∀ (idx steps : Nat) (a b : Bool),
      results_update_opt none idx steps a b = none) := by
  constructor
  · intro r idx steps a b h
    simp [results_update, h]
  · intro idx steps a b
    rfl

/-- Witness for C10: updating cell 3 of a 1×2 aggregate (2 cells) changes
nothing. -/
theorem C10_results_update_out_of_range_noop_witness :
    results_update
      { size := { width := 1, height := 2 }, cell_count := 2,
        trials := [4, 5], sum_steps := [6, 7], success_leq_k := [1, 2] }
      3 9 true true
    = { size := { width := 1, height := 2 }, cell_count := 2,
        trials := [4, 5], sum_steps := [6, 7], success_leq_k := [1, 2] } :=
  C10_results_update_out_of_range_noop.1 _ 3 9 true true (by decide)

/-! Sequences of `results_update` calls, as performed by the worker threads
(each popped job performs exactly one update; per-cell counter contents only
depend on the multiset of updates, so the fan-out is modelled as a fold). -/

/-- Argument tuple of one `results_update` call. -/
structure rw_update_arg where
  idx : Nat
  steps : Nat
  reached_origin : Bool
  success_leq_k : Bool
  deriving DecidableEq, Repr

/-- Apply a sequence of updates in order. -/
def results_apply (r : results_t) (us : List rw_update_arg) : results_t :=
  us.foldl (fun acc u => results_update acc u.idx u.steps u.reached_origin u.success_leq_k) r

/-- Structural well-formedness maintained by the C code: the three arrays have
length `cell_count` and every entry is in range of its machine type. -/
def results_wf (r : results_t) : Prop :=
  r.trials.length = r.cell_count ∧
  r.sum_steps.length = r.cell_count ∧
  r.success_leq_k.length = r.cell_count ∧
  (∀ v ∈ r.trials, v < U32_MOD) ∧
  (∀ v ∈ r.sum_steps, v < U64_MOD) ∧
  (∀ v ∈ r.success_leq_k, v < U32_MOD)

/-- Number of updates of a sequence that actually hit cell `i` (in-range
index equal to `i`). -/
def upd_count_hits (cc i : Nat) (us : List rw_update_arg) : Nat :=
  (us.filter (fun u => decide (u.idx = i ∧ u.idx < cc))).length

/-- Number of in-range updates at cell `i` with the success flag set. -/
def upd_count_succ (cc i : Nat) (us : List rw_update_arg) : Nat :=
  (us.filter (fun u => decide (u.idx = i ∧ u.idx < cc ∧ u.success_leq_k = true))).length

/-- Total steps of the in-range updates at cell `i` that reached the origin. -/
def upd_steps_sum (cc i : Nat) (us : List rw_update_arg) : Nat :=
  ((us.filter (fun u => decide (u.idx = i ∧ u.idx < cc ∧ u.reached_origin = true))).map
    rw_update_arg.steps).sum

theorem results_update_cell_count (r : results_t) (idx steps : Nat) (a b : Bool) :
    (results_update r idx steps a b).cell_count = r.cell_count := by
  unfold results_update
  split <;> rfl

theorem results_update_wf (r : results_t) (idx steps : Nat) (a b : Bool)
    (h : results_wf r) : results_wf (results_update r idx steps a b) := by
  obtain ⟨h1, h2, h3, h4, h5, h6⟩ := h
  unfold results_update
  split
  · exact ⟨h1, h2, h3, h4, h5, h6⟩
  · refine ⟨?_, ?_, ?_, ?_, ?_, ?_⟩ <;> simp only
    · simpa using h1
    · split <;> simpa using h2
    · split <;> simpa using h3
    · intro v hv
      rcases List.mem_or_eq_of_mem_set hv with hv' | hv'
      · exact h4 v hv'
      · subst hv'
        exact Nat.mod_lt _ (by norm_num [U32_MOD])
    · split at *
      · intro v hv
        rcases List.mem_or_eq_of_mem_set hv with hv' | hv'
        · exact h5 v hv'
        · subst hv'
          exact Nat.mod_lt _ (by norm_num [U64_MOD])
      · exact h5
    · split at *
      · intro v hv
        rcases List.mem_or_eq_of_mem_set hv with hv' | hv'
        · exact h6 v hv'
        · subst hv'
          exact Nat.mod_lt _ (by norm_num [U32_MOD])
      · exact h6

theorem getD_lt_of_forall_lt (l : List Nat) (B i : Nat) (hB : 0 < B)
    (h : ∀ v ∈ l, v < B) : l.getD i 0 < B := by
  by_cases hi : i < l.length
  · rw [List.getD_eq_getElem l 0 hi]
    exact h _ (List.getElem_mem hi)
  · rw [List.getD_eq_default l 0 (by omega)]
    exact hB

theorem results_update_trials_getD (r : results_t) (idx steps : Nat) (a b : Bool)
    (hwf : results_wf r) (i : Nat) :
    (results_update r idx steps a b).trials.getD i 0 =
      if idx = i ∧ idx < r.cell_count then (r.trials.getD i 0 + 1) % U32_MOD
      else r.trials.getD i 0 := by
  unfold results_update
  by_cases hcc : r.cell_count ≤ idx
  · rw [if_pos hcc, if_neg (by omega)]
  · rw [if_neg hcc]
    simp only
    by_cases hi : idx = i
    · subst hi
      rw [if_pos ⟨rfl, by omega⟩]
      have hilen : idx < r.trials.length := by
        rw [hwf.1]; omega
      rw [List.getD_eq_getElem _ 0 (by simpa using hilen)]
      simp [List.getElem_set, hilen]
    · rw [if_neg (by tauto)]
      simp [List.getD, List.getElem?_set_ne hi]

theorem results_update_sum_steps_getD (r : results_t) (idx steps : Nat) (a b : Bool)
    (hwf : results_wf r) (i : Nat) :
    (results_update r idx steps a b).sum_steps.getD i 0 =
      if idx = i ∧ idx < r.cell_count ∧ a = true then
        (r.sum_steps.getD i 0 + steps) % U64_MOD
      else r.sum_steps.getD i 0 := by
  unfold results_update
  by_cases hcc : r.cell_count ≤ idx
  · rw [if_pos hcc, if_neg (by omega)]
  · rw [if_neg hcc]
    simp only
    cases a with
    | false => simp
    | true =>
      rw [if_pos rfl]
      by_cases hi : idx = i
      · subst hi
        rw [if_pos ⟨rfl, by omega, rfl⟩]
        have hilen : idx < r.sum_steps.length := by
          rw [hwf.2.1]; omega
        rw [List.getD_eq_getElem _ 0 (by simpa using hilen)]
        simp [List.getElem_set, hilen]
      · rw [if_neg (by tauto)]
        simp [List.getD, List.getElem?_set_ne hi]

theorem results_update_success_getD (r : results_t) (idx steps : Nat) (a b : Bool)
    (hwf : results_wf r) (i : Nat) :
    (results_update r idx steps a b).success_leq_k.getD i 0 =
      if idx = i ∧ idx < r.cell_count ∧ b = true then
        (r.success_leq_k.getD i 0 + 1) % U32_MOD
      else r.success_leq_k.getD i 0 := by
  unfold results_update
  by_cases hcc : r.cell_count ≤ idx
  · rw [if_pos hcc, if_neg (by omega)]
  · rw [if_neg hcc]
    simp only
    cases b with
    | false => simp
    | true =>
      rw [if_pos rfl]
      by_cases hi : idx = i
      · subst hi
        rw [if_pos ⟨rfl, by omega, rfl⟩]
        have hilen : idx < r.success_leq_k.length := by
          rw [hwf.2.2.1]; omega
        rw [List.getD_eq_getElem _ 0 (by simpa using hilen)]
        simp [List.getElem_set, hilen]
      · rw [if_neg (by tauto)]
        simp [List.getD, List.getElem?_set_ne hi]

theorem results_apply_cell_count (us : List rw_update_arg) :
    ∀ r : results_t, (results_apply r us).cell_count = r.cell_count := by
  induction us with
  | nil => intro r; rfl
  | cons u us ih =>
    intro r
    show (results_apply (results_update r u.idx u.steps u.reached_origin u.success_leq_k) us).cell_count = _
    rw [ih, results_update_cell_count]

theorem results_apply_wf (us : List rw_update_arg) :
    ∀ r : results_t, results_wf r → results_wf (results_apply r us) := by
  induction us with
  | nil => intro r h; exact h
  | cons u us ih =>
    intro r h
    exact ih _ (results_update_wf r u.idx u.steps u.reached_origin u.success_leq_k h)

theorem results_apply_trials_getD (us : List rw_update_arg) :
    ∀ r : results_t, results_wf r → ∀ i,
      (results_apply r us).trials.getD i 0 =
        (r.trials.getD i 0 + upd_count_hits r.cell_count i us) % U32_MOD := by
  induction us with
  | nil =>
    intro r hwf i
    have h0 : upd_count_hits r.cell_count i [] = 0 := rfl
    show r.trials.getD i 0 = _
    rw [h0, Nat.add_zero,
      Nat.mod_eq_of_lt (getD_lt_of_forall_lt _ _ _ (by norm_num [U32_MOD]) hwf.2.2.2.1)]
  | cons u us ih =>
    intro r hwf i
    have hstep :
        (results_apply r (u :: us)).trials.getD i 0 =
          ((results_update r u.idx u.steps u.reached_origin u.success_leq_k).trials.getD i 0 +
            upd_count_hits r.cell_count i us) % U32_MOD := by
      have := ih (results_update r u.idx u.steps u.reached_origin u.success_leq_k)
        (results_update_wf r u.idx u.steps u.reached_origin u.success_leq_k hwf) i
      rw [results_update_cell_count] at this
      exact this
    rw [hstep, results_update_trials_getD r u.idx u.steps u.reached_origin u.success_leq_k hwf i]
    by_cases hu : u.idx = i ∧ u.idx < r.cell_count
    · obtain ⟨heq, hlt⟩ := hu
      subst heq
      rw [if_pos ⟨rfl, hlt⟩]
      have hcount : upd_count_hits r.cell_count u.idx (u :: us) =
          upd_count_hits r.cell_count u.idx us + 1 := by
        simp [upd_count_hits, List.filter_cons, hlt]
      rw [hcount, Nat.mod_add_mod]
      congr 1
      omega
    · rw [if_neg hu]
      have hcount : upd_count_hits r.cell_count i (u :: us) =
          upd_count_hits r.cell_count i us := by
        simp only [upd_count_hits, List.filter_cons]
        rw [if_neg (by simpa using hu)]
      rw [hcount]

theorem results_apply_sum_steps_getD (us : List rw_update_arg) :
    ∀ r : results_t, results_wf r → ∀ i,
      (results_apply r us).sum_steps.getD i 0 =
        (r.sum_steps.getD i 0 + upd_steps_sum r.cell_count i us) % U64_MOD := by
  induction us with
  | nil =>
    intro r hwf i
    have h0 : upd_steps_sum r.cell_count i [] = 0 := rfl
    show r.sum_steps.getD i 0 = _
    rw [h0, Nat.add_zero,
      Nat.mod_eq_of_lt (getD_lt_of_forall_lt _ _ _ (by norm_num [U64_MOD]) hwf.2.2.2.2.1)]
  | cons u us ih =>
    intro r hwf i
    have hstep :
        (results_apply r (u :: us)).sum_steps.getD i 0 =
          ((results_update r u.idx u.steps u.reached_origin u.success_leq_k).sum_steps.getD i 0 +
            upd_steps_sum r.cell_count i us) % U64_MOD := by
      have := ih (results_update r u.idx u.steps u.reached_origin u.success_leq_k)
        (results_update_wf r u.idx u.steps u.reached_origin u.success_leq_k hwf) i
      rw [results_update_cell_count] at this
      exact this
    rw [hstep, results_update_sum_steps_getD r u.idx u.steps u.reached_origin u.success_leq_k hwf i]
    by_cases hu : u.idx = i ∧ u.idx < r.cell_count ∧ u.reached_origin = true
    · obtain ⟨heq, hlt, hflag⟩ := hu
      subst heq
      rw [if_pos ⟨rfl, hlt, hflag⟩]
      have hsum : upd_steps_sum r.cell_count u.idx (u :: us) =
          u.steps + upd_steps_sum r.cell_count u.idx us := by
        simp [upd_steps_sum, List.filter_cons, hlt, hflag]
      rw [hsum, Nat.mod_add_mod]
      congr 1
      omega
    · rw [if_neg hu]
      have hsum : upd_steps_sum r.cell_count i (u :: us) =
          upd_steps_sum r.cell_count i us := by
        simp only [upd_steps_sum, List.filter_cons]
        rw [if_neg (by simpa using hu)]
      rw [hsum]

theorem results_apply_success_getD (us : List rw_update_arg) :
    ∀ r : results_t, results_wf r → ∀ i,
      (results_apply r us).success_leq_k.getD i 0 =
        (r.success_leq_k.getD i 0 + upd_count_succ r.cell_count i us) % U32_MOD := by
  induction us with
  | nil =>
    intro r hwf i
    have h0 : upd_count_succ r.cell_count i [] = 0 := rfl
    show r.success_leq_k.getD i 0 = _
    rw [h0, Nat.add_zero,
      Nat.mod_eq_of_lt (getD_lt_of_forall_lt _ _ _ (by norm_num [U32_MOD]) hwf.2.2.2.2.2)]
  | cons u us ih =>
    intro r hwf i
    have hstep :
        (results_apply r (u :: us)).success_leq_k.getD i 0 =
          ((results_update r u.idx u.steps u.reached_origin u.success_leq_k).success_leq_k.getD i 0 +
            upd_count_succ r.cell_count i us) % U32_MOD := by
      have := ih (results_update r u.idx u.steps u.reached_origin u.success_leq_k)
        (results_update_wf r u.idx u.steps u.reached_origin u.success_leq_k hwf) i
      rw [results_update_cell_count] at this
      exact this
    rw [hstep, results_update_success_getD r u.idx u.steps u.reached_origin u.success_leq_k hwf i]
    by_cases hu : u.idx = i ∧ u.idx < r.cell_count ∧ u.success_leq_k = true
    · obtain ⟨heq, hlt, hflag⟩ := hu
      subst heq
      rw [if_pos ⟨rfl, hlt, hflag⟩]
      have hcount : upd_count_succ r.cell_count u.idx (u :: us) =
          upd_count_succ r.cell_count u.idx us + 1 := by
        simp [upd_count_succ, List.filter_cons, hlt, hflag]
      rw [hcount, Nat.mod_add_mod]
      congr 1
      omega
    · rw [if_neg hu]
      have hcount : upd_count_succ r.cell_count i (u :: us) =
          upd_count_succ r.cell_count i us := by
        simp only [upd_count_succ, List.filter_cons]
        rw [if_neg (by simpa using hu)]
      rw [hcount]

theorem getD_replicate_zero (cc i : Nat) : (List.replicate cc (0 : Nat)).getD i 0 = 0 := by
  by_cases hi : i < cc
  · rw [List.getD_eq_getElem _ 0 (by simpa using hi)]
    simp
  · rw [List.getD_eq_default _ 0 (by simpa using hi)]

theorem upd_count_hits_append (cc i : Nat) (us vs : List rw_update_arg) :
    upd_count_hits cc i (us ++ vs) = upd_count_hits cc i us + upd_count_hits cc i vs := by
  simp [upd_count_hits, List.filter_append]

theorem upd_count_succ_append (cc i : Nat) (us vs : List rw_update_arg) :
    upd_count_succ cc i (us ++ vs) = upd_count_succ cc i us + upd_count_succ cc i vs := by
  simp [upd_count_succ, List.filter_append]

theorem upd_steps_sum_append (cc i : Nat) (us vs : List rw_update_arg) :
    upd_steps_sum cc i (us ++ vs) = upd_steps_sum cc i us + upd_steps_sum cc i vs := by
  simp [upd_steps_sum, List.filter_append]

theorem upd_count_hits_le_length (cc i : Nat) (us : List rw_update_arg) :
    upd_count_hits cc i us ≤ us.length :=
  List.length_filter_le _ _

theorem upd_count_succ_le_hits (cc i : Nat) (us : List rw_update_arg) :
    upd_count_succ cc i us ≤ upd_count_hits cc i us := by
  induction us with
  | nil => exact le_rfl
  | cons u us ih =>
    simp only [upd_count_succ, upd_count_hits, List.filter_cons] at *
    by_cases hs : u.idx = i ∧ u.idx < cc ∧ u.success_leq_k = true
    · obtain ⟨heq, hlt, hflag⟩ := hs
      subst heq
      rw [if_pos (by simp [hlt, hflag]), if_pos (by simp [hlt])]
      simpa using Nat.succ_le_succ ih
    · rw [if_neg (by simpa using hs)]
      by_cases hh : u.idx = i ∧ u.idx < cc
      · rw [if_pos (by simpa using hh)]
        simp only [List.length_cons]
        omega
      · rw [if_neg (by simpa using hh)]
        exact ih

theorem upd_steps_sum_le (cc i : Nat) (B : Nat) (us : List rw_update_arg)
    (h : ∀ u ∈ us, u.steps ≤ B) :
    upd_steps_sum cc i us ≤ us.length * B := by
  induction us with
  | nil => simp [upd_steps_sum]
  | cons u us ih =>
    have hu := h u (by simp)
    have ih' := ih (fun v hv => h v (by simp [hv]))
    simp only [upd_steps_sum, List.filter_cons] at ih' ⊢
    by_cases hc : u.idx = i ∧ u.idx < cc ∧ u.reached_origin = true
    · rw [if_pos (by simpa using hc)]
      simp only [List.map_cons, List.sum_cons, List.length_cons]
      calc u.steps + _ ≤ B + us.length * B := Nat.add_le_add hu ih'
      _ = (us.length + 1) * B := by ring
    · rw [if_neg (by simpa using hc)]
      calc _ ≤ us.length * B := ih'
      _ ≤ (us.length + 1) * B := Nat.mul_le_mul_right _ (by omega)

theorem upd_succ_zero_steps_zero (cc i : Nat) (us : List rw_update_arg)
    (hag : ∀ u ∈ us, u.reached_origin = u.success_leq_k)
    (h0 : upd_count_succ cc i us = 0) : upd_steps_sum cc i us = 0 := by
  induction us with
  | nil => rfl
  | cons u us ih =>
    have hagu := hag u (by simp)
    have hag' : ∀ v ∈ us, v.reached_origin = v.success_leq_k :=
      fun v hv => hag v (by simp [hv])
    simp only [upd_count_succ, upd_steps_sum, List.filter_cons] at h0 ⊢
    by_cases hc : u.idx = i ∧ u.idx < cc ∧ u.success_leq_k = true
    · rw [if_pos (by simpa using hc)] at h0
      simp at h0
    · rw [if_neg (by simpa using hc)] at h0
      have hc2 : ¬ (u.idx = i ∧ u.idx < cc ∧ u.reached_origin = true) := by
        rw [hagu]
        exact hc
      rw [if_neg (by simpa using hc2)]
      exact ih hag' h0

theorem zeroed_of_start (r0 : results_t)
    (hstart : (∃ size, results_init size = some r0) ∨ (∃ r1, r0 = results_clear r1)) :
    r0.trials = List.replicate r0.cell_count 0 ∧
    r0.sum_steps = List.replicate r0.cell_count 0 ∧
    r0.success_leq_k = List.replicate r0.cell_count 0 := by
  rcases hstart with ⟨size, hinit⟩ | ⟨r1, hclear⟩
  · unfold results_init at hinit
    split at hinit
    · exact absurd hinit (by simp)
    · cases hinit
      exact ⟨rfl, rfl, rfl⟩
  · subst hclear
    exact ⟨rfl, rfl, rfl⟩

theorem zeroed_wf (r0 : results_t)
    (hz : r0.trials = List.replicate r0.cell_count 0 ∧
      r0.sum_steps = List.replicate r0.cell_count 0 ∧
      r0.success_leq_k = List.replicate r0.cell_count 0) : results_wf r0 := by
  obtain ⟨h1, h2, h3⟩ := hz
  refine ⟨by simp [h1], by simp [h2], by simp [h3], ?_, ?_, ?_⟩
  · intro v hv
    rw [h1] at hv
    rw [List.eq_of_mem_replicate hv]
    norm_num [U32_MOD]
  · intro v hv
    rw [h2] at hv
    rw [List.eq_of_mem_replicate hv]
    norm_num [U64_MOD]
  · intro v hv
    rw [h3] at hv
    rw [List.eq_of_mem_replicate hv]
    norm_num [U32_MOD]

theorem filter_replicate_eval {α : Type} (p : α → Bool) (n : Nat) (a : α) :
    (List.replicate n a).filter p = if p a = true then List.replicate n a else [] := by
  induction n with
  | zero => simp
  | succ n ih =>
    by_cases hp : p a = true
    · simp [List.replicate_succ, List.filter_cons, hp, ih]
    · simp [List.replicate_succ, List.filter_cons, hp, ih]

theorem upd_count_hits_cons (cc i : Nat) (u : rw_update_arg) (us : List rw_update_arg) :
    upd_count_hits cc i (u :: us) =
      (if u.idx = i ∧ u.idx < cc then 1 else 0) + upd_count_hits cc i us := by
  simp only [upd_count_hits, List.filter_cons]
  by_cases hc : u.idx = i ∧ u.idx < cc
  · rw [if_pos (by simpa using hc), if_pos hc]
    simp [Nat.add_comm]
  · rw [if_neg (by simpa using hc), if_neg hc]
    simp

theorem upd_count_hits_replicate (cc i n : Nat) (u : rw_update_arg) :
    upd_count_hits cc i (List.replicate n u) =
      if u.idx = i ∧ u.idx < cc then n else 0 := by
  simp only [upd_count_hits]
  rw [filter_replicate_eval]
  by_cases hc : u.idx = i ∧ u.idx < cc
  · rw [if_pos (by simpa using hc), if_pos hc, List.length_replicate]
  · rw [if_neg (by simpa using hc), if_neg hc, List.length_nil]

theorem upd_count_succ_cons (cc i : Nat) (u : rw_update_arg) (us : List rw_update_arg) :
    upd_count_succ cc i (u :: us) =
      (if u.idx = i ∧ u.idx < cc ∧ u.success_leq_k = true then 1 else 0) +
        upd_count_succ cc i us := by
  simp only [upd_count_succ, List.filter_cons]
  by_cases hc : u.idx = i ∧ u.idx < cc ∧ u.success_leq_k = true
  · rw [if_pos (by simpa using hc), if_pos hc]
    simp [Nat.add_comm]
  · rw [if_neg (by simpa using hc), if_neg hc]
    simp

theorem upd_count_succ_replicate (cc i n : Nat) (u : rw_update_arg) :
    upd_count_succ cc i (List.replicate n u) =
      if u.idx = i ∧ u.idx < cc ∧ u.success_leq_k = true then n else 0 := by
  simp only [upd_count_succ]
  rw [filter_replicate_eval]
  by_cases hc : u.idx = i ∧ u.idx < cc ∧ u.success_leq_k = true
  · rw [if_pos (by simpa using hc), if_pos hc, List.length_replicate]
  · rw [if_neg (by simpa using hc), if_neg hc, List.length_nil]


/-- C2 (amended): starting from `results_init` or `results_clear`, a sequence
of `results_update` calls whose arguments come from `random_walk_run` outputs
(`reached_origin` and `success_leq_k` agree, `steps` fits in `u32`) and whose
total length stays below `2^32` (so the `u32` counters cannot wrap) keeps, at
every cell, `success_leq_k ≤ trials`; all three counters are monotonically
non-decreasing from any prefix `us` to the full sequence `us ++ vs`; and
`success_leq_k = 0` implies `sum_steps = 0`. -/
theorem C2_results_invariants (r0 : results_t)
    (hstart : (∃ size, results_init size = some r0) ∨ (∃ r1, r0 = results_clear r1))
    (us vs : List rw_update_arg)
    (hagree : ∀ u ∈ us ++ vs, u.reached_origin = u.success_leq_k)
    (hsteps : ∀ u ∈ us ++ vs, u.steps < U32_MOD)
    (hlen : (us ++ vs).length < U32_MOD) :
    (∀ i, (results_apply r0 (us ++ vs)).success_leq_k.getD i 0 ≤
        (results_apply r0 (us ++ vs)).trials.getD i 0)
  ∧ (∀ i, (results_apply r0 us).trials.getD i 0 ≤
        (results_apply r0 (us ++ vs)).trials.getD i 0)
  ∧ (∀ i, (results_apply r0 us).sum_steps.getD i 0 ≤
        (results_apply r0 (us ++ vs)).sum_steps.getD i 0)
  ∧ (∀ i, (results_apply r0 us).success_leq_k.getD i 0 ≤
        (results_apply r0 (us ++ vs)).success_leq_k.getD i 0)
  ∧ (∀ i, (results_apply r0 (us ++ vs)).success_leq_k.getD i 0 = 0 →
        (results_apply r0 (us ++ vs)).sum_steps.getD i 0 = 0) := by
  have hz := zeroed_of_start r0 hstart
  have hwf := zeroed_wf r0 hz
  have htr0 : ∀ i, r0.trials.getD i 0 = 0 := fun i => by
    rw [hz.1]; exact getD_replicate_zero _ _
  have hss0 : ∀ i, r0.sum_steps.getD i 0 = 0 := fun i => by
    rw [hz.2.1]; exact getD_replicate_zero _ _
  have hsc0 : ∀ i, r0.success_leq_k.getD i 0 = 0 := fun i => by
    rw [hz.2.2]; exact getD_replicate_zero _ _
  have hlen_us : us.length ≤ (us ++ vs).length := by simp
  have hhits_lt : ∀ (l : List rw_update_arg) i, l.length < U32_MOD →
      upd_count_hits r0.cell_count i l < U32_MOD :=
    fun l i hl => lt_of_le_of_lt (upd_count_hits_le_length _ _ _) hl
  have hsucc_lt : ∀ (l : List rw_update_arg) i, l.length < U32_MOD →
      upd_count_succ r0.cell_count i l < U32_MOD :=
    fun l i hl => lt_of_le_of_lt
      (le_trans (upd_count_succ_le_hits _ _ _) (upd_count_hits_le_length _ _ _)) hl
  have hsum_lt : ∀ (l : List rw_update_arg) i, l.length < U32_MOD →
      (∀ u ∈ l, u.steps < U32_MOD) → upd_steps_sum r0.cell_count i l < U64_MOD := by
    intro l i hl hst
    have h1 : upd_steps_sum r0.cell_count i l ≤ l.length * (U32_MOD - 1) :=
      upd_steps_sum_le _ _ _ _ (fun u hu => by have := hst u hu; omega)
    have h2 : l.length * (U32_MOD - 1) ≤ (U32_MOD - 1) * (U32_MOD - 1) :=
      Nat.mul_le_mul_right _ (by omega)
    have h3 : (U32_MOD - 1) * (U32_MOD - 1) < U64_MOD := by norm_num [U32_MOD, U64_MOD]
    omega
  have Etr : ∀ (l : List rw_update_arg), l.length < U32_MOD → ∀ i,
      (results_apply r0 l).trials.getD i 0 = upd_count_hits r0.cell_count i l := by
    intro l hl i
    rw [results_apply_trials_getD l r0 hwf i, htr0 i, Nat.zero_add,
      Nat.mod_eq_of_lt (hhits_lt l i hl)]
  have Esc : ∀ (l : List rw_update_arg), l.length < U32_MOD → ∀ i,
      (results_apply r0 l).success_leq_k.getD i 0 = upd_count_succ r0.cell_count i l := by
    intro l hl i
    rw [results_apply_success_getD l r0 hwf i, hsc0 i, Nat.zero_add,
      Nat.mod_eq_of_lt (hsucc_lt l i hl)]
  have Ess : ∀ (l : List rw_update_arg), l.length < U32_MOD →
      (∀ u ∈ l, u.steps < U32_MOD) → ∀ i,
      (results_apply r0 l).sum_steps.getD i 0 = upd_steps_sum r0.cell_count i l := by
    intro l hl hst i
    rw [results_apply_sum_steps_getD l r0 hwf i, hss0 i, Nat.zero_add,
      Nat.mod_eq_of_lt (hsum_lt l i hl hst)]
  have hlus : us.length < U32_MOD := lt_of_le_of_lt hlen_us hlen
  have hsteps_us : ∀ u ∈ us, u.steps < U32_MOD := fun u hu => hsteps u (by simp [hu])
  refine ⟨?_, ?_, ?_, ?_, ?_⟩
  · intro i
    rw [Etr _ hlen i, Esc _ hlen i]
    exact upd_count_succ_le_hits _ _ _
  · intro i
    rw [Etr _ hlen i, Etr _ hlus i, upd_count_hits_append]
    omega
  · intro i
    rw [Ess _ hlen hsteps i, Ess _ hlus hsteps_us i, upd_steps_sum_append]
    omega
  · intro i
    rw [Esc _ hlen i, Esc _ hlus i, upd_count_succ_append]
    omega
  · intro i h0
    rw [Esc _ hlen i] at h0
    rw [Ess _ hlen hsteps i]
    exact upd_succ_zero_steps_zero _ _ _ hagree h0

/-- Initial aggregate of the C2 counterexample: a 1×1 grid. -/
def c2_start : results_t :=
  { size := { width := 1, height := 1 }, cell_count := 1,
    trials := [0], sum_steps := [0], success_leq_k := [0] }

/-- Update sequence of the C2 counterexample: one successful trajectory
(`(0, true, true)`, a valid `random_walk_run` output for a start at the
origin) followed by `2^32 - 1` failed trajectories (`(7, false, false)`, a
valid output for `max_steps = 7`), all at cell 0. -/
def c2_break_updates : List rw_update_arg :=
  { idx := 0, steps := 0, reached_origin := true, success_leq_k := true } ::
    List.replicate (U32_MOD - 1)
      { idx := 0, steps := 7, reached_origin := false, success_leq_k := false }

/-- Counterexample to C2 as stated: after `2^32` updates at cell 0 whose
arguments all come from `random_walk_run` outputs, the `u32` trials counter
has wrapped to 0 while `success_leq_k` is 1, so `success_leq_k ≤ trials`
fails (and `trials` itself decreased at the wrap, breaking monotonicity). -/
theorem C2_results_invariants_counterexample :
    results_init { width := 1, height := 1 } = some c2_start ∧
    (∀ u ∈ c2_break_updates, u.reached_origin = u.success_leq_k) ∧
    (results_apply c2_start c2_break_updates).trials.getD 0 0 = 0 ∧
    (results_apply c2_start c2_break_updates).success_leq_k.getD 0 0 = 1 ∧
    ¬ ((results_apply c2_start c2_break_updates).success_leq_k.getD 0 0 ≤
        (results_apply c2_start c2_break_updates).trials.getD 0 0) := by
  have hwf : results_wf c2_start := by
    refine ⟨rfl, rfl, rfl, ?_, ?_, ?_⟩ <;>
      (intro v hv; simp only [c2_start, List.mem_singleton] at hv; subst hv) <;>
      norm_num [U32_MOD, U64_MOD]
  have hhits : upd_count_hits c2_start.cell_count 0 c2_break_updates = U32_MOD := by
    unfold c2_break_updates
    rw [upd_count_hits_cons, upd_count_hits_replicate]
    rw [if_pos (by constructor <;> norm_num [c2_start]),
      if_pos (by constructor <;> norm_num [c2_start])]
    norm_num [U32_MOD]
  have hsucc : upd_count_succ c2_start.cell_count 0 c2_break_updates = 1 := by
    unfold c2_break_updates
    rw [upd_count_succ_cons, upd_count_succ_replicate]
    rw [if_pos (by refine ⟨rfl, by norm_num [c2_start], rfl⟩), if_neg (by simp)]
  have htr : (results_apply c2_start c2_break_updates).trials.getD 0 0 = 0 := by
    rw [results_apply_trials_getD _ _ hwf 0]
    have h0 : c2_start.trials.getD 0 0 = 0 := rfl
    rw [h0, hhits, Nat.zero_add, Nat.mod_self]
  have hsc : (results_apply c2_start c2_break_updates).success_leq_k.getD 0 0 = 1 := by
    rw [results_apply_success_getD _ _ hwf 0]
    have h0 : c2_start.success_leq_k.getD 0 0 = 0 := rfl
    rw [h0, hsucc, Nat.zero_add, Nat.mod_eq_of_lt (by norm_num [U32_MOD])]
  refine ⟨by decide, ?_, htr, hsc, ?_⟩
  · intro u hu
    rcases List.mem_cons.1 hu with h | h
    · subst h; rfl
    · rw [List.eq_of_mem_replicate h]
  · rw [htr, hsc]
    omega

/-- Witness for the amended C2: a successful and a failed update at cell 0 of
a freshly initialised 1×1 aggregate keep all three invariants. -/
theorem C2_results_invariants_witness :
    (results_apply c2_start
        ([{ idx := 0, steps := 0, reached_origin := true, success_leq_k := true }] ++
         [{ idx := 0, steps := 7, reached_origin := false, success_leq_k := false }])).success_leq_k.getD 0 0 ≤
      (results_apply c2_start
        ([{ idx := 0, steps := 0, reached_origin := true, success_leq_k := true }] ++
         [{ idx := 0, steps := 7, reached_origin := false, success_leq_k := false }])).trials.getD 0 0 :=
  (C2_results_invariants c2_start (Or.inl ⟨{ width := 1, height := 1 }, by decide⟩)
    [{ idx := 0, steps := 0, reached_origin := true, success_leq_k := true }]
    [{ idx := 0, steps := 7, reached_origin := false, success_leq_k := false }]
    (by decide) (fun u hu => by
      rcases List.mem_append.1 hu with h | h <;>
        (simp only [List.mem_singleton] at h; subst h; norm_num [U32_MOD]))
    (by norm_num [U32_MOD])).1 0

/-! Replication batch, from `sim_thread_main` (sim_manager.c): after
`results_clear`, each repetition walks the grid row-major, skips obstacle
cells, and submits one job per free cell; each job performs one
`random_walk_run` followed by one `results_update` at the cell's index
(worker_main in worker_pool.c). Since per-cell counters depend only on the
multiset of updates, the pool fan-out is modelled as the in-order fold of the
generated updates; `rng rep idx` is the arbitrary draw stream a worker's
thread-local RNG provides to the job `(rep, idx)`. The no-stop-request run is
modelled (the claim is about batches that run to completion). -/

/-- Updates generated by one row `y` of one repetition of the
`sim_thread_main` cell loop. -/
def row_updates (w : world_t) (probs : move_probs_t) (K : Nat)
    (rng : Nat → Nat → Nat → ℚ) (rep : Nat) (y : Nat) : List rw_update_arg :=
  (List.range w.size.width).filterMap (fun (x : Nat) =>
    if world_is_obstacle_xy w (x : Int) (y : Int) then none
    else
      some { idx := world_index w (x : Int) (y : Int)
             steps := (random_walk_run w { x := (x : Int), y := (y : Int) } probs K
               (rng rep (world_index w (x : Int) (y : Int)))).1
             reached_origin := (random_walk_run w { x := (x : Int), y := (y : Int) } probs K
               (rng rep (world_index w (x : Int) (y : Int)))).2.1
             success_leq_k := (random_walk_run w { x := (x : Int), y := (y : Int) } probs K
               (rng rep (world_index w (x : Int) (y : Int)))).2.2 })

/-- Updates generated by one full repetition (rows in order). -/
def rep_updates (w : world_t) (probs : move_probs_t) (K : Nat)
    (rng : Nat → Nat → Nat → ℚ) (rep : Nat) : List rw_update_arg :=
  (List.range w.size.height).flatMap (row_updates w probs K rng rep)

/-- Aggregate effect of a completed batch of `reps` repetitions
(`sim_thread_main` with no stop request): clear, then apply every
repetition's updates in order. -/
def sim_batch (w : world_t) (probs : move_probs_t) (K : Nat)
    (rng : Nat → Nat → Nat → ℚ) (reps : Nat) (r0 : results_t) : results_t :=
  results_apply (results_clear r0)
    ((List.range reps).flatMap (fun rep => rep_updates w probs K rng (rep + 1)))

theorem obstacle_xy_nat (w : world_t) (x y : Nat)
    (hx : x < w.size.width) (hy : y < w.size.height) :
    world_is_obstacle_xy w (x : Int) (y : Int) =
      w.obstacles.getD (y * w.size.width + x) false := by
  have hb : world_in_bounds w (x : Int) (y : Int) = true := by
    simp [world_in_bounds]
    exact ⟨by exact_mod_cast hx, by exact_mod_cast hy⟩
  have hidx : world_index w (x : Int) (y : Int) = y * w.size.width + x := by
    simp [world_index]
  have hlt : y * w.size.width + x < world_cell_count w := by
    unfold world_cell_count
    calc y * w.size.width + x < y * w.size.width + w.size.width := by omega
    _ = (y + 1) * w.size.width := by ring
    _ ≤ w.size.height * w.size.width := Nat.mul_le_mul_right _ (by omega)
    _ = w.size.width * w.size.height := Nat.mul_comm _ _
  unfold world_is_obstacle_xy
  rw [hb, if_pos rfl, hidx]
  unfold world_is_obstacle_idx
  rw [if_neg (by omega)]

theorem world_index_nat (w : world_t) (x y : Nat) :
    world_index w (x : Int) (y : Int) = y * w.size.width + x := by
  simp [world_index]

/-- Prefix of one row's update list (first `Wc` columns), used to induct over
the `for (x = 0; x < W; x++)` loop. -/
def row_updates_upto (w : world_t) (probs : move_probs_t) (K : Nat)
    (rng : Nat → Nat → Nat → ℚ) (rep : Nat) (y : Nat) (Wc : Nat) : List rw_update_arg :=
  (List.range Wc).filterMap (fun (x : Nat) =>
    if world_is_obstacle_xy w (x : Int) (y : Int) then none
    else
      some { idx := world_index w (x : Int) (y : Int)
             steps := (random_walk_run w { x := (x : Int), y := (y : Int) } probs K
               (rng rep (world_index w (x : Int) (y : Int)))).1
             reached_origin := (random_walk_run w { x := (x : Int), y := (y : Int) } probs K
               (rng rep (world_index w (x : Int) (y : Int)))).2.1
             success_leq_k := (random_walk_run w { x := (x : Int), y := (y : Int) } probs K
               (rng rep (world_index w (x : Int) (y : Int)))).2.2 })

theorem row_updates_upto_full (w : world_t) (probs : move_probs_t) (K : Nat)
    (rng : Nat → Nat → Nat → ℚ) (rep : Nat) (y : Nat) :
    row_updates_upto w probs K rng rep y w.size.width = row_updates w probs K rng rep y := rfl

/-- Prefix of one repetition's update list (first `Hc` rows). -/
def rep_updates_upto (w : world_t) (probs : move_probs_t) (K : Nat)
    (rng : Nat → Nat → Nat → ℚ) (rep : Nat) (Hc : Nat) : List rw_update_arg :=
  (List.range Hc).flatMap (row_updates w probs K rng rep)

theorem rep_updates_upto_full (w : world_t) (probs : move_probs_t) (K : Nat)
    (rng : Nat → Nat → Nat → ℚ) (rep : Nat) :
    rep_updates_upto w probs K rng rep w.size.height = rep_updates w probs K rng rep := rfl

theorem hits_row_upto (w : world_t) (probs : move_probs_t) (K : Nat)
    (rng : Nat → Nat → Nat → ℚ) (rep : Nat) (y i : Nat) (hy : y < w.size.height) :
    ∀ Wc, Wc ≤ w.size.width →
      upd_count_hits (world_cell_count w) i (row_updates_upto w probs K rng rep y Wc) =
        if y * w.size.width ≤ i ∧ i < y * w.size.width + Wc ∧
            w.obstacles.getD i false = false then 1 else 0 := by
  intro Wc
  induction Wc with
  | zero =>
    intro _
    rw [if_neg (by omega)]
    rfl
  | succ Wc ih =>
    intro hW
    have hW' : Wc ≤ w.size.width := by omega
    have hWlt : Wc < w.size.width := by omega
    unfold row_updates_upto
    rw [List.range_succ, List.filterMap_append]
    rw [upd_count_hits_append]
    have ihh := ih hW'
    unfold row_updates_upto at ihh
    rw [ihh]
    have hidx0 : world_index w (Wc : Int) (y : Int) = y * w.size.width + Wc :=
      world_index_nat w Wc y
    have hidx0_lt : y * w.size.width + Wc < world_cell_count w := by
      unfold world_cell_count
      calc y * w.size.width + Wc < y * w.size.width + w.size.width := by omega
      _ = (y + 1) * w.size.width := by ring
      _ ≤ w.size.height * w.size.width := Nat.mul_le_mul_right _ (by omega)
      _ = w.size.width * w.size.height := Nat.mul_comm _ _
    have hobseq := obstacle_xy_nat w Wc y hWlt hy
    by_cases hobs : world_is_obstacle_xy w (Wc : Int) (y : Int) = true
    · have htail : (List.filterMap (fun (x : Nat) =>
          if world_is_obstacle_xy w (x : Int) (y : Int) then (none : Option rw_update_arg)
          else
            some { idx := world_index w (x : Int) (y : Int)
                   steps := (random_walk_run w { x := (x : Int), y := (y : Int) } probs K
                     (rng rep (world_index w (x : Int) (y : Int)))).1
                   reached_origin := (random_walk_run w { x := (x : Int), y := (y : Int) } probs K
                     (rng rep (world_index w (x : Int) (y : Int)))).2.1
                   success_leq_k := (random_walk_run w { x := (x : Int), y := (y : Int) } probs K
                     (rng rep (world_index w (x : Int) (y : Int)))).2.2 }) [Wc])
          = [] := by
        simp [hobs]
      rw [htail]
      have hblock : w.obstacles.getD (y * w.size.width + Wc) false = true := by
        rw [← hobseq]; exact hobs
      show _ + upd_count_hits _ i [] = _
      have hnil : upd_count_hits (world_cell_count w) i [] = 0 := rfl
      rw [hnil, Nat.add_zero]
      by_cases hie : i = y * w.size.width + Wc
      · subst hie
        rw [if_neg (by omega), if_neg (by rw [hblock]; simp)]
      · by_cases hcond : y * w.size.width ≤ i ∧ i < y * w.size.width + Wc ∧
            w.obstacles.getD i false = false
        · rw [if_pos hcond, if_pos ⟨hcond.1, by omega, hcond.2.2⟩]
        · rw [if_neg hcond, if_neg (by
            rintro ⟨h1, h2, h3⟩
            exact hcond ⟨h1, by omega, h3⟩)]
    · have hobs' : world_is_obstacle_xy w (Wc : Int) (y : Int) = false := by
        revert hobs; cases world_is_obstacle_xy w (Wc : Int) (y : Int) <;> simp
      have htail : (List.filterMap (fun (x : Nat) =>
          if world_is_obstacle_xy w (x : Int) (y : Int) then (none : Option rw_update_arg)
          else
            some { idx := world_index w (x : Int) (y : Int)
                   steps := (random_walk_run w { x := (x : Int), y := (y : Int) } probs K
                     (rng rep (world_index w (x : Int) (y : Int)))).1
                   reached_origin := (random_walk_run w { x := (x : Int), y := (y : Int) } probs K
                     (rng rep (world_index w (x : Int) (y : Int)))).2.1
                   success_leq_k := (random_walk_run w { x := (x : Int), y := (y : Int) } probs K
                     (rng rep (world_index w (x : Int) (y : Int)))).2.2 }) [Wc])
          = [({ idx := world_index w (Wc : Int) (y : Int),
                steps := (random_walk_run w { x := (Wc : Int), y := (y : Int) } probs K
                  (rng rep (world_index w (Wc : Int) (y : Int)))).1,
                reached_origin := (random_walk_run w { x := (Wc : Int), y := (y : Int) } probs K
                  (rng rep (world_index w (Wc : Int) (y : Int)))).2.1,
                success_leq_k := (random_walk_run w { x := (Wc : Int), y := (y : Int) } probs K
                  (rng rep (world_index w (Wc : Int) (y : Int)))).2.2 } : rw_update_arg)] := by
        simp [hobs']
      rw [htail]
      have hfree : w.obstacles.getD (y * w.size.width + Wc) false = false := by
        rw [← hobseq]; exact hobs'
      rw [upd_count_hits_cons]
      dsimp only
      have hnil : upd_count_hits (world_cell_count w) i [] = 0 := rfl
      rw [hnil, Nat.add_zero, hidx0]
      by_cases hie : i = y * w.size.width + Wc
      · subst hie
        rw [if_neg (by omega), if_pos ⟨rfl, hidx0_lt⟩,
          if_pos ⟨by omega, by omega, hfree⟩]
      · have hns : ¬ (y * w.size.width + Wc = i ∧
            y * w.size.width + Wc < world_cell_count w) := by
          rintro ⟨h1, _⟩
          exact hie h1.symm
        by_cases hcond : y * w.size.width ≤ i ∧ i < y * w.size.width + Wc ∧
            w.obstacles.getD i false = false
        · rw [if_pos hcond, if_neg hns, if_pos ⟨hcond.1, by omega, hcond.2.2⟩]
        · rw [if_neg hcond, if_neg hns, if_neg (by
            rintro ⟨h1, h2, h3⟩
            exact hcond ⟨h1, by omega, h3⟩)]

theorem hits_rep_upto (w : world_t) (probs : move_probs_t) (K : Nat)
    (rng : Nat → Nat → Nat → ℚ) (rep : Nat) (i : Nat) :
    ∀ Hc, Hc ≤ w.size.height →
      upd_count_hits (world_cell_count w) i (rep_updates_upto w probs K rng rep Hc) =
        if i < Hc * w.size.width ∧ w.obstacles.getD i false = false then 1 else 0 := by
  intro Hc
  induction Hc with
  | zero =>
    intro _
    rw [if_neg (by omega)]
    rfl
  | succ Hc ih =>
    intro hH
    have hH' : Hc ≤ w.size.height := by omega
    have hHlt : Hc < w.size.height := by omega
    unfold rep_updates_upto
    rw [List.range_succ, List.flatMap_append]
    rw [upd_count_hits_append]
    have ihh := ih hH'
    unfold rep_updates_upto at ihh
    rw [ihh]
    have hrow : (([Hc] : List Nat).flatMap (row_updates w probs K rng rep)) =
        row_updates w probs K rng rep Hc := by
      simp
    rw [hrow, ← row_updates_upto_full,
      hits_row_upto w probs K rng rep Hc i hHlt w.size.width le_rfl]
    have hmul : (Hc + 1) * w.size.width = Hc * w.size.width + w.size.width := by ring
    rw [hmul]
    generalize Hc * w.size.width = a
    by_cases hfree : w.obstacles.getD i false = false
    · by_cases h1 : i < a
      · rw [if_pos ⟨h1, hfree⟩, if_neg (by omega), if_pos ⟨by omega, hfree⟩]
      · by_cases h2 : i < a + w.size.width
        · rw [if_neg (by omega), if_pos ⟨by omega, by omega, hfree⟩,
            if_pos ⟨h2, hfree⟩]
        · rw [if_neg (by omega), if_neg (by omega), if_neg (by omega)]
    · rw [if_neg (by tauto), if_neg (by tauto), if_neg (by tauto)]

/-- Update list of a full completed batch. -/
def batch_updates (w : world_t) (probs : move_probs_t) (K : Nat)
    (rng : Nat → Nat → Nat → ℚ) (reps : Nat) : List rw_update_arg :=
  (List.range reps).flatMap (fun rep => rep_updates w probs K rng (rep + 1))

theorem sim_batch_eq_apply (w : world_t) (probs : move_probs_t) (K : Nat)
    (rng : Nat → Nat → Nat → ℚ) (reps : Nat) (r0 : results_t) :
    sim_batch w probs K rng reps r0 =
      results_apply (results_clear r0) (batch_updates w probs K rng reps) := rfl

theorem hits_batch (w : world_t) (probs : move_probs_t) (K : Nat)
    (rng : Nat → Nat → Nat → ℚ) (i : Nat) :
    ∀ reps, upd_count_hits (world_cell_count w) i (batch_updates w probs K rng reps) =
      reps * (if i < world_cell_count w ∧ w.obstacles.getD i false = false then 1 else 0) := by
  have hone : ∀ rep, upd_count_hits (world_cell_count w) i (rep_updates w probs K rng rep) =
      if i < world_cell_count w ∧ w.obstacles.getD i false = false then 1 else 0 := by
    intro rep
    rw [← rep_updates_upto_full,
      hits_rep_upto w probs K rng rep i w.size.height le_rfl]
    have hn : w.size.height * w.size.width = world_cell_count w := by
      unfold world_cell_count; ring
    rw [hn]
  intro reps
  induction reps with
  | zero =>
    simp [batch_updates, upd_count_hits]
  | succ reps ih =>
    unfold batch_updates
    rw [List.range_succ, List.flatMap_append, upd_count_hits_append]
    unfold batch_updates at ih
    rw [ih]
    have hlast : (([reps] : List Nat).flatMap (fun rep => rep_updates w probs K rng (rep + 1))) =
        rep_updates w probs K rng (reps + 1) := by
      simp
    rw [hlast, hone]
    ring

theorem run_from_origin (w : world_t) (probs : move_probs_t) (K : Nat) (rng : Nat → ℚ)
    (hW : 0 < w.size.width) (hH : 0 < w.size.height)
    (h0 : w.obstacles.getD 0 false = false) :
    random_walk_run w { x := 0, y := 0 } probs K rng = (0, true, true) := by
  have hb : world_in_bounds w 0 0 = true := by
    simp only [world_in_bounds]
    refine by simp [show (0 : Int) < (w.size.width : Int) from by exact_mod_cast hW,
      show (0 : Int) < (w.size.height : Int) from by exact_mod_cast hH]
  have ho : world_is_obstacle_xy w 0 0 = false := by
    have h2 := obstacle_xy_nat w 0 0 hW hH
    simp only [Nat.zero_mul, Nat.add_zero, Nat.cast_zero] at h2
    rw [h2]
    exact h0
  simp [random_walk_run, hb, ho]

theorem batch_update_at_origin (w : world_t) (probs : move_probs_t) (K : Nat)
    (rng : Nat → Nat → Nat → ℚ) (reps : Nat)
    (hW : 0 < w.size.width) (hH : 0 < w.size.height)
    (h0 : w.obstacles.getD 0 false = false) :
    ∀ u ∈ batch_updates w probs K rng reps, u.idx = 0 → u.steps = 0 := by
  intro u hu hidx
  unfold batch_updates at hu
  rcases List.mem_flatMap.1 hu with ⟨rep, _, hu2⟩
  unfold rep_updates at hu2
  rcases List.mem_flatMap.1 hu2 with ⟨y, hy, hu3⟩
  unfold row_updates at hu3
  rcases List.mem_filterMap.1 hu3 with ⟨x, hx, hfx⟩
  by_cases hobs : world_is_obstacle_xy w (x : Int) (y : Int) = true
  · rw [if_pos hobs] at hfx
    exact absurd hfx (by simp)
  · rw [if_neg hobs] at hfx
    have hu_eq := Option.some.inj hfx
    have hidx_val : u.idx = y * w.size.width + x := by
      rw [← hu_eq, world_index_nat]
    have hx0 : x = 0 := by
      rw [hidx_val] at hidx
      omega
    have hy0 : y = 0 := by
      rw [hidx_val, hx0] at hidx
      rcases Nat.mul_eq_zero.1 (by omega : y * w.size.width = 0) with h | h
      · exact h
      · omega
    subst hx0
    subst hy0
    rw [← hu_eq]
    show (random_walk_run w { x := ((0 : Nat) : Int), y := ((0 : Nat) : Int) } probs K _).1 = 0
    rw [show (((0 : Nat) : Int)) = (0 : Int) from by simp]
    rw [run_from_origin w probs K _ hW hH h0]

theorem upd_steps_sum_eq_zero (cc i : Nat) (l : List rw_update_arg)
    (h : ∀ u ∈ l, u.idx = i → u.steps = 0) : upd_steps_sum cc i l = 0 := by
  unfold upd_steps_sum
  apply List.sum_eq_zero
  intro s hs
  rcases List.mem_map.1 hs with ⟨u, hu, rfl⟩
  have hmem := List.mem_filter.1 hu
  have hcond := hmem.2
  simp only [decide_eq_true_eq] at hcond
  exact h u hmem.1 hcond.1

/-- C3: after a completed batch of `total_reps < 2^32` repetitions with no
stop request, every free cell (including the origin) has `trials = total_reps`,
every obstacle cell has `trials = 0`, the sum of `trials` over the free cells
is `total_reps` times the number of free cells, and the origin's trajectories
contribute zero steps (`sum_steps[0] = 0` when the origin is free). -/
theorem C3_sim_batch_conservation (w : world_t) (probs : move_probs_t) (K : Nat)
    (rng : Nat → Nat → Nat → ℚ) (reps : Nat) (r0 : results_t)
    (hcc : r0.cell_count = world_cell_count w)
    (hreps : reps < U32_MOD) :
    (∀ i, i < world_cell_count w → w.obstacles.getD i false = false →
      (sim_batch w probs K rng reps r0).trials.getD i 0 = reps)
  ∧ (∀ i, i < world_cell_count w → w.obstacles.getD i false = true →
      (sim_batch w probs K rng reps r0).trials.getD i 0 = 0)
  ∧ ((Finset.range (world_cell_count w)).filter
        (fun i => w.obstacles.getD i false = false)).sum
      (fun i => (sim_batch w probs K rng reps r0).trials.getD i 0)
    = reps * ((Finset.range (world_cell_count w)).filter
        (fun i => w.obstacles.getD i false = false)).card
  ∧ (0 < world_cell_count w → w.obstacles.getD 0 false = false →
      (sim_batch w probs K rng reps r0).sum_steps.getD 0 0 = 0) := by
  have hz := zeroed_of_start (results_clear r0) (Or.inr ⟨r0, rfl⟩)
  have hwf := zeroed_wf _ hz
  have hccc : (results_clear r0).cell_count = world_cell_count w := hcc
  have htr : ∀ i, (sim_batch w probs K rng reps r0).trials.getD i 0 =
      reps * (if i < world_cell_count w ∧ w.obstacles.getD i false = false
        then 1 else 0) := by
    intro i
    rw [sim_batch_eq_apply, results_apply_trials_getD _ _ hwf i]
    have h00 : (results_clear r0).trials.getD i 0 = 0 := by
      rw [hz.1]; exact getD_replicate_zero _ _
    rw [h00, Nat.zero_add, hccc, hits_batch]
    apply Nat.mod_eq_of_lt
    calc reps * (if i < world_cell_count w ∧ w.obstacles.getD i false = false
          then 1 else 0) ≤ reps * 1 := Nat.mul_le_mul_left _ (by split <;> omega)
    _ = reps := Nat.mul_one _
    _ < U32_MOD := hreps
  refine ⟨?_, ?_, ?_, ?_⟩
  · intro i hi hfree
    rw [htr i, if_pos ⟨hi, hfree⟩, Nat.mul_one]
  · intro i hi hobs
    rw [htr i, if_neg (by rw [hobs]; simp), Nat.mul_zero]
  · rw [Finset.sum_congr rfl (fun i hi => ?_)]
    · rw [Finset.sum_const, smul_eq_mul, Nat.mul_comm]
    · have hmem := Finset.mem_filter.1 hi
      rw [htr i, if_pos ⟨Finset.mem_range.1 hmem.1, hmem.2⟩, Nat.mul_one]
  · intro hn h0
    have hW : 0 < w.size.width := by
      by_contra h
      have hw0 : w.size.width = 0 := by omega
      unfold world_cell_count at hn
      rw [hw0, Nat.zero_mul] at hn
      omega
    have hH : 0 < w.size.height := by
      by_contra h
      have hh0 : w.size.height = 0 := by omega
      unfold world_cell_count at hn
      rw [hh0, Nat.mul_zero] at hn
      omega
    rw [sim_batch_eq_apply, results_apply_sum_steps_getD _ _ hwf 0]
    have h00 : (results_clear r0).sum_steps.getD 0 0 = 0 := by
      rw [hz.2.1]; exact getD_replicate_zero _ _
    rw [h00, Nat.zero_add,
      upd_steps_sum_eq_zero _ _ _ (batch_update_at_origin w probs K rng reps hW hH h0)]
    simp

/-- Witness for C3: a 2×1 wrap world with both cells free, three repetitions;
the non-origin cell records exactly 3 trials. -/
theorem C3_sim_batch_conservation_witness :
    (sim_batch
      { kind := world_kinds_t.WORLD_WRAP, size := { width := 2, height := 1 },
        obstacles := [false, false] }
      { p_up := 1/4, p_down := 1/4, p_left := 1/4, p_right := 1/4 }
      4 (fun _ _ _ => 0) 3
      { size := { width := 2, height := 1 }, cell_count := 2,
        trials := [0, 0], sum_steps := [0, 0], success_leq_k := [0, 0] }).trials.getD 1 0
      = 3 :=
  (C3_sim_batch_conservation _ _ _ _ _ _ (by decide) (by norm_num [U32_MOD])).1
    1 (by decide) (by decide)

/-! Obstacle generation and reachability repair, from the second (current)
version of `src/server/world.c`. The `reachable` byte array of the C BFS is
modelled as a `Finset Nat` of marked indices and the `uint32_t` queue as a
`List Nat`; the worklist is processed in the same order as the C loop. -/

/-- The neighbour direction table `kNeighborDirs`. -/
def kNeighborDirs : List (Int × Int) := [(1, 0), (-1, 0), (0, 1), (0, -1)]

/-- In-bounds 4-neighbours of cell `idx` in the order the C BFS visits them
(`x = idx % width`, `y = idx / width`, then each direction with the
`world_in_bounds` test; the obstacle and already-marked tests happen at visit
time). -/
def bfs_neighbors (w : world_t) (idx : Nat) : List Nat :=
  kNeighborDirs.filterMap (fun d =>
    let nx : Int := ((idx % w.size.width : Nat) : Int) + d.1
    let ny : Int := ((idx / w.size.width : Nat) : Int) + d.2
    if world_in_bounds w nx ny then some (world_index w nx ny) else none)

/-- Visit of one neighbour inside the BFS loop: skip obstacles and
already-marked cells, otherwise mark and enqueue. -/
def bfs_visit (w : world_t) (acc : Finset Nat × List Nat) (nidx : Nat) :
    Finset Nat × List Nat :=
  if w.obstacles.getD nidx false then acc
  else if nidx ∈ acc.1 then acc
  else (insert nidx acc.1, acc.2 ++ [nidx])

theorem bfs_neighbors_lt (w : world_t) (idx : Nat) :
    ∀ v ∈ bfs_neighbors w idx, v < world_cell_count w := by
  intro v hv
  unfold bfs_neighbors at hv
  rcases List.mem_filterMap.1 hv with ⟨d, _, hd⟩
  simp only at hd
  by_cases hb : world_in_bounds w (((idx % w.size.width : Nat) : Int) + d.1)
      (((idx / w.size.width : Nat) : Int) + d.2) = true
  · rw [if_pos hb] at hd
    have hv_eq := Option.some.inj hd
    unfold world_in_bounds at hb
    simp only [Bool.and_eq_true, decide_eq_true_eq] at hb
    obtain ⟨⟨⟨h1, h2⟩, h3⟩, h4⟩ := hb
    subst hv_eq
    unfold world_index world_cell_count
    have hx : (((idx % w.size.width : Nat) : Int) + d.1).toNat < w.size.width := by
      omega
    have hy : (((idx / w.size.width : Nat) : Int) + d.2).toNat < w.size.height := by
      omega
    calc (((idx / w.size.width : Nat) : Int) + d.2).toNat * w.size.width +
          (((idx % w.size.width : Nat) : Int) + d.1).toNat
        < (((idx / w.size.width : Nat) : Int) + d.2).toNat * w.size.width +
          w.size.width := by omega
      _ = ((((idx / w.size.width : Nat) : Int) + d.2).toNat + 1) * w.size.width := by ring
      _ ≤ w.size.height * w.size.width := Nat.mul_le_mul_right _ (by omega)
      _ = w.size.width * w.size.height := Nat.mul_comm _ _
  · rw [if_neg hb] at hd
    exact absurd hd (by simp)

theorem bfs_fold_spec (w : world_t) (ns : List Nat) :
    ∀ (m : Finset Nat) (pend : List Nat),
      m ⊆ (ns.foldl (bfs_visit w) (m, pend)).1 ∧
      ((ns.foldl (bfs_visit w) (m, pend)).2.length + m.card =
        pend.length + (ns.foldl (bfs_visit w) (m, pend)).1.card) ∧
      (∀ a ∈ (ns.foldl (bfs_visit w) (m, pend)).2, a ∈ pend ∨
        (a ∈ (ns.foldl (bfs_visit w) (m, pend)).1 ∧ a ∈ ns ∧ a ∉ m ∧
          w.obstacles.getD a false = false)) ∧
      (∀ a ∈ (ns.foldl (bfs_visit w) (m, pend)).1, a ∈ m ∨
        (a ∈ ns ∧ w.obstacles.getD a false = false)) ∧
      (∀ v ∈ ns, w.obstacles.getD v false = false →
        v ∈ (ns.foldl (bfs_visit w) (m, pend)).1) ∧
      (∀ a ∈ (ns.foldl (bfs_visit w) (m, pend)).1, a ∉ m →
        a ∈ (ns.foldl (bfs_visit w) (m, pend)).2) ∧
      (∀ a ∈ pend, a ∈ (ns.foldl (bfs_visit w) (m, pend)).2) := by
  induction ns with
  | nil =>
    intro m pend
    simp only [List.foldl_nil]
    refine ⟨Finset.Subset.refl m, trivial, ?_, ?_, ?_, ?_, ?_⟩
    · intro a ha; exact Or.inl ha
    · intro a ha; exact Or.inl ha
    · intro v hv; exact absurd hv (by simp)
    · intro a ha hnm; exact absurd ha (by simp [hnm])
    · intro a ha; exact ha
  | cons v ns ih =>
    intro m pend
    rw [List.foldl_cons]
    by_cases hobs : w.obstacles.getD v false = true
    · have hv1 : bfs_visit w (m, pend) v = (m, pend) := by
        unfold bfs_visit
        rw [if_pos hobs]
      rw [hv1]
      obtain ⟨i1, i2, i3, i4, i5, i6, i7⟩ := ih m pend
      refine ⟨i1, i2, ?_, ?_, ?_, i6, i7⟩
      · intro a ha
        rcases i3 a ha with h | ⟨h1, h2, h3, h4⟩
        · exact Or.inl h
        · exact Or.inr ⟨h1, by simp [h2], h3, h4⟩
      · intro a ha
        rcases i4 a ha with h | ⟨h1, h2⟩
        · exact Or.inl h
        · exact Or.inr ⟨by simp [h1], h2⟩
      · intro u hu hfree
        rcases List.mem_cons.1 hu with h | h
        · subst h; rw [hfree] at hobs; exact absurd hobs (by simp)
        · exact i5 u h hfree
    · have hfree : w.obstacles.getD v false = false := by
        revert hobs; cases w.obstacles.getD v false <;> simp
      by_cases hmem : v ∈ m
      · have hv1 : bfs_visit w (m, pend) v = (m, pend) := by
          unfold bfs_visit
          rw [if_neg hobs, if_pos hmem]
        rw [hv1]
        obtain ⟨i1, i2, i3, i4, i5, i6, i7⟩ := ih m pend
        refine ⟨i1, i2, ?_, ?_, ?_, i6, i7⟩
        · intro a ha
          rcases i3 a ha with h | ⟨h1, h2, h3, h4⟩
          · exact Or.inl h
          · exact Or.inr ⟨h1, by simp [h2], h3, h4⟩
        · intro a ha
          rcases i4 a ha with h | ⟨h1, h2⟩
          · exact Or.inl h
          · exact Or.inr ⟨by simp [h1], h2⟩
        · intro u hu hfreeu
          rcases List.mem_cons.1 hu with h | h
          · subst h; exact i1 hmem
          · exact i5 u h hfreeu
      · have hv1 : bfs_visit w (m, pend) v = (insert v m, pend ++ [v]) := by
          unfold bfs_visit
          rw [if_neg hobs, if_neg hmem]
        rw [hv1]
        obtain ⟨i1, i2, i3, i4, i5, i6, i7⟩ := ih (insert v m) (pend ++ [v])
        have hsub : m ⊆ insert v m := Finset.subset_insert _ _
        refine ⟨hsub.trans i1, ?_, ?_, ?_, ?_, ?_, ?_⟩
        · rw [Finset.card_insert_of_not_mem hmem] at i2
          simp only [List.length_append, List.length_cons, List.length_nil] at i2 ⊢
          omega
        · intro a ha
          rcases i3 a ha with h | ⟨h1, h2, h3, h4⟩
          · rcases List.mem_append.1 h with h' | h'
            · exact Or.inl h'
            · have hav : a = v := by simpa using h'
              subst hav
              exact Or.inr ⟨i1 (Finset.mem_insert_self _ _), by simp, hmem, hfree⟩
          · refine Or.inr ⟨h1, by simp [h2], ?_, h4⟩
            intro ham
            exact h3 (Finset.mem_insert_of_mem ham)
        · intro a ha
          rcases i4 a ha with h | ⟨h1, h2⟩
          · rcases Finset.mem_insert.1 h with h' | h'
            · subst h'; exact Or.inr ⟨by simp, hfree⟩
            · exact Or.inl h'
          · exact Or.inr ⟨by simp [h1], h2⟩
        · intro u hu hfreeu
          rcases List.mem_cons.1 hu with h | h
          · subst h; exact i1 (Finset.mem_insert_self _ _)
          · exact i5 u h hfreeu
        · intro a ha hnm
          by_cases hav : a = v
          · subst hav
            exact i7 _ (by simp)
          · exact i6 a ha (by simp [Finset.mem_insert, hav, hnm])
        · intro a ha
          exact i7 a (by simp [ha])

/-- The BFS worklist loop of `world_mark_reachable` (`while (head < tail)`):
pop the front index, visit its four neighbours, and continue with the marked
set and queue the visits produce. Terminates because each visit either marks
a new in-range cell or the queue shrinks. -/
def bfsAux (w : world_t) (q : List Nat) (marked : Finset Nat) : Finset Nat :=
  match q with
  | [] => marked
  | idx :: queue =>
    bfsAux w (queue ++ ((bfs_neighbors w idx).foldl (bfs_visit w) (marked, [])).2)
      ((bfs_neighbors w idx).foldl (bfs_visit w) (marked, [])).1
termination_by ((Finset.range (world_cell_count w) \ marked).card, q.length)
decreasing_by
  obtain ⟨i1, i2, i3, _, _, _, _⟩ := bfs_fold_spec w (bfs_neighbors w idx) marked []
  by_cases hnil : ((bfs_neighbors w idx).foldl (bfs_visit w) (marked, [])).2 = []
  · have hcard : ((bfs_neighbors w idx).foldl (bfs_visit w) (marked, [])).1.card
        = marked.card := by
      rw [hnil] at i2
      simpa using i2.symm
    have heq : ((bfs_neighbors w idx).foldl (bfs_visit w) (marked, [])).1 = marked :=
      (Finset.eq_of_subset_of_card_le i1 (le_of_eq hcard)).symm
    rw [heq, hnil]
    apply Prod.Lex.right
    simp
  · obtain ⟨a, ha⟩ := List.exists_mem_of_ne_nil _ hnil
    rcases i3 a ha with h | ⟨h1, h2, h3, _⟩
    · exact absurd h (by simp)
    · apply Prod.Lex.left
      apply Finset.card_lt_card
      constructor
      · intro b hb
        rcases Finset.mem_sdiff.1 hb with ⟨hb1, hb2⟩
        exact Finset.mem_sdiff.2 ⟨hb1, fun hbm => hb2 (i1 hbm)⟩
      · intro hcontra
        have halt : a < world_cell_count w := bfs_neighbors_lt w idx a h2
        have hina : a ∈ Finset.range (world_cell_count w) \ marked :=
          Finset.mem_sdiff.2 ⟨Finset.mem_range.2 halt, h3⟩
        have := hcontra hina
        exact (Finset.mem_sdiff.1 this).2 h1

/-- The `world_mark_reachable` entry point: nothing is reachable when the
grid is empty or the origin is blocked; otherwise BFS from cell 0. -/
def world_mark_reachable (w : world_t) : Finset Nat :=
  if world_cell_count w = 0 then ∅
  else if w.obstacles.getD 0 false then ∅
  else bfsAux w [0] {0}

/-- Free cell: in range and not an obstacle. -/
def free_cell (w : world_t) (i : Nat) : Prop :=
  i < world_cell_count w ∧ w.obstacles.getD i false = false

/-- Reachability from the origin by 4-connected moves through free cells,
using the code's own neighbour relation. -/
inductive grid_reachable (w : world_t) : Nat → Prop where
  | origin (h : free_cell w 0) : grid_reachable w 0
  | step (u v : Nat) (hu : grid_reachable w u) (hv : v ∈ bfs_neighbors w u)
      (hfree : w.obstacles.getD v false = false) : grid_reachable w v

theorem bfsAux_mono (w : world_t) :
    ∀ (q : List Nat) (m : Finset Nat), m ⊆ bfsAux w q m := by
  intro q m
  induction q, m using bfsAux.induct w with
  | case1 m => rw [bfsAux]
  | case2 m idx queue ih =>
    rw [bfsAux]
    obtain ⟨i1, _, _, _, _, _, _⟩ := bfs_fold_spec w (bfs_neighbors w idx) m []
    exact i1.trans ih

theorem bfsAux_sound (w : world_t) :
    ∀ (q : List Nat) (m : Finset Nat),
      (∀ a ∈ m, grid_reachable w a) → (∀ a ∈ q, a ∈ m) →
      ∀ a ∈ bfsAux w q m, grid_reachable w a := by
  intro q m
  induction q, m using bfsAux.induct w with
  | case1 m =>
    intro hm _ a ha
    rw [bfsAux] at ha
    exact hm a ha
  | case2 m idx queue ih =>
    intro hm hq a ha
    rw [bfsAux] at ha
    obtain ⟨i1, i2, i3, i4, i5, i6, i7⟩ := bfs_fold_spec w (bfs_neighbors w idx) m []
    have hidx : grid_reachable w idx := hm idx (hq idx (by simp))
    have hm' : ∀ b ∈ ((bfs_neighbors w idx).foldl (bfs_visit w) (m, [])).1,
        grid_reachable w b := by
      intro b hb
      rcases i4 b hb with h | ⟨h1, h2⟩
      · exact hm b h
      · exact grid_reachable.step idx b hidx h1 h2
    have hq' : ∀ b ∈ queue ++ ((bfs_neighbors w idx).foldl (bfs_visit w) (m, [])).2,
        b ∈ ((bfs_neighbors w idx).foldl (bfs_visit w) (m, [])).1 := by
      intro b hb
      rcases List.mem_append.1 hb with h | h
      · exact i1 (hq b (by simp [h]))
      · rcases i3 b h with h' | ⟨h1, _, _, _⟩
        · exact absurd h' (by simp)
        · exact h1
    exact ih hm' hq' a ha

theorem bfsAux_closed (w : world_t) :
    ∀ (q : List Nat) (m : Finset Nat),
      (∀ u ∈ m, u ∉ q → ∀ v ∈ bfs_neighbors w u,
        w.obstacles.getD v false = false → v ∈ m) →
      ∀ u ∈ bfsAux w q m, ∀ v ∈ bfs_neighbors w u,
        w.obstacles.getD v false = false → v ∈ bfsAux w q m := by
  intro q m
  induction q, m using bfsAux.induct w with
  | case1 m =>
    intro hinv u hu v hv hfree
    rw [bfsAux] at hu ⊢
    exact hinv u hu (by simp) v hv hfree
  | case2 m idx queue ih =>
    intro hinv u hu v hv hfree
    rw [bfsAux] at hu ⊢
    obtain ⟨i1, i2, i3, i4, i5, i6, i7⟩ := bfs_fold_spec w (bfs_neighbors w idx) m []
    refine ih ?_ u hu v hv hfree
    intro u' hu' hu'q v' hv' hfree'
    by_cases hui : u' = idx
    · subst hui
      exact i5 v' hv' hfree'
    · by_cases hm : u' ∈ m
      · have hnq : u' ∉ idx :: queue := by
          intro hc
          rcases List.mem_cons.1 hc with h | h
          · exact hui h
          · exact hu'q (List.mem_append.2 (Or.inl h))
        exact i1 (hinv u' hm hnq v' hv' hfree')
      · exact absurd (i6 u' hu' hm) (fun hc => hu'q (List.mem_append.2 (Or.inr hc)))

theorem grid_reachable_origin_free (w : world_t) (a : Nat)
    (h : grid_reachable w a) : free_cell w 0 := by
  induction h with
  | origin h => exact h
  | step u v _ _ _ ih => exact ih

theorem mark_reachable_sound (w : world_t) :
    ∀ a ∈ world_mark_reachable w, grid_reachable w a := by
  intro a ha
  unfold world_mark_reachable at ha
  by_cases hn : world_cell_count w = 0
  · rw [if_pos hn] at ha
    exact absurd ha (by simp)
  · rw [if_neg hn] at ha
    by_cases h0 : w.obstacles.getD 0 false = true
    · rw [if_pos h0] at ha
      exact absurd ha (by simp)
    · rw [if_neg h0] at ha
      have hfree0 : free_cell w 0 := by
        refine ⟨by omega, ?_⟩
        revert h0
        cases w.obstacles.getD 0 false <;> simp
      refine bfsAux_sound w [0] {0} ?_ ?_ a ha
      · intro b hb
        rw [Finset.mem_singleton.1 hb]
        exact grid_reachable.origin hfree0
      · intro b hb
        simp only [List.mem_singleton] at hb
        simp [hb]

theorem mark_reachable_complete (w : world_t) :
    ∀ a, grid_reachable w a → a ∈ world_mark_reachable w := by
  intro a ha
  have hfree0 := grid_reachable_origin_free w a ha
  unfold world_mark_reachable
  rw [if_neg (by have := hfree0.1; omega), if_neg (by rw [hfree0.2]; simp)]
  induction ha with
  | origin h => exact bfsAux_mono w [0] {0} (by simp)
  | step u v hu hv hfreev ihv =>
    refine bfsAux_closed w [0] {0} ?_ u ihv v hv hfreev
    intro u' hu' hq
    exact absurd (by simp [Finset.mem_singleton.1 hu']) hq

theorem getD_set_ne (l : List Bool) (k j : Nat) (v d : Bool) (h : k ≠ j) :
    (l.set k v).getD j d = l.getD j d := by
  simp [List.getD, List.getElem?_set_ne h]

theorem count_true_set_false_le (l : List Bool) (k : Nat) :
    (l.set k false).count true ≤ l.count true := by
  induction l generalizing k with
  | nil => simp
  | cons b l ih =>
    cases k with
    | zero =>
      cases b <;> simp [List.count_cons]
    | succ k =>
      simp only [List.set, List.count_cons]
      exact Nat.add_le_add_right (ih k) _

theorem count_true_set_false_lt (l : List Bool) (k : Nat) (hk : k < l.length)
    (ht : l.getD k false = true) : (l.set k false).count true < l.count true := by
  induction l generalizing k with
  | nil => simp at hk
  | cons b l ih =>
    cases k with
    | zero =>
      have hb : b = true := by simpa using ht
      subst hb
      simp [List.count_cons]
    | succ k =>
      simp only [List.set, List.count_cons]
      have hk' : k < l.length := by simpa using hk
      have ht' : l.getD k false = true := by simpa using ht
      exact Nat.add_lt_add_right (ih k hk' ht') _

theorem set_false_getD_mono (l : List Bool) (k j : Nat)
    (h : (l.set k false).getD j false = true) : l.getD j false = true := by
  by_cases hkj : k = j
  · subst hkj
    by_cases hl : k < l.length
    · rw [List.getD_eq_getElem _ false (by simpa using hl)] at h
      simp [List.getElem_set, hl] at h
    · rw [List.set_eq_of_length_le (by omega)] at h
      exact h
  · rw [getD_set_ne l k j false false hkj] at h
    exact h

theorem length_foldl_set_false (ps : List Nat) :
    ∀ l : List Bool, (ps.foldl (fun o k => o.set k false) l).length = l.length := by
  induction ps with
  | nil => intro l; rfl
  | cons p ps ih =>
    intro l
    rw [List.foldl_cons, ih, List.length_set]

theorem count_foldl_set_false_le (ps : List Nat) :
    ∀ l : List Bool, (ps.foldl (fun o k => o.set k false) l).count true ≤ l.count true := by
  induction ps with
  | nil => intro l; exact le_rfl
  | cons p ps ih =>
    intro l
    rw [List.foldl_cons]
    exact le_trans (ih _) (count_true_set_false_le l p)

theorem getD_foldl_set_false_not_mem (ps : List Nat) :
    ∀ (l : List Bool) (j : Nat), j ∉ ps →
      (ps.foldl (fun o k => o.set k false) l).getD j false = l.getD j false := by
  induction ps with
  | nil => intro l j _; rfl
  | cons p ps ih =>
    intro l j hj
    rw [List.foldl_cons, ih _ _ (by simp [List.mem_cons] at hj; exact hj.2)]
    exact getD_set_ne l p j false false
      (by simp [List.mem_cons] at hj; exact fun h => hj.1 h.symm)

theorem getD_foldl_set_false_mem (ps : List Nat) :
    ∀ (l : List Bool) (j : Nat), j ∈ ps → j < l.length →
      (ps.foldl (fun o k => o.set k false) l).getD j false = false := by
  induction ps with
  | nil => intro l j hj _; simp at hj
  | cons p ps ih =>
    intro l j hj hlen
    rw [List.foldl_cons]
    by_cases hjp : j ∈ ps
    · exact ih _ _ hjp (by rw [List.length_set]; exact hlen)
    · have hj_eq : j = p := by
        rcases List.mem_cons.1 hj with h | h
        · exact h
        · exact absurd h hjp
      subst hj_eq
      rw [getD_foldl_set_false_not_mem ps _ _ hjp]
      rw [List.getD_eq_getElem _ false (by rw [List.length_set]; simpa using hlen)]
      simp [List.getElem_set, hlen]

theorem count_foldl_set_false_lt (ps : List Nat) :
    ∀ (l : List Bool) (j : Nat), j ∈ ps → j < l.length → l.getD j false = true →
      (ps.foldl (fun o k => o.set k false) l).count true < l.count true := by
  induction ps with
  | nil => intro l j hj _ _; simp at hj
  | cons p ps ih =>
    intro l j hj hlen ht
    rw [List.foldl_cons]
    by_cases hpj : p = j
    · subst hpj
      exact lt_of_le_of_lt (count_foldl_set_false_le ps _)
        (count_true_set_false_lt l p hlen ht)
    · have hjps : j ∈ ps := by
        rcases List.mem_cons.1 hj with h | h
        · exact absurd h.symm hpj
        · exact h
      have hlt := ih (l.set p false) j hjps (by rw [List.length_set]; exact hlen)
        (by rw [getD_set_ne l p j false false hpj]; exact ht)
      exact lt_of_lt_of_le hlt (count_true_set_false_le l p)

theorem set_false_getD_mono_foldl (ps : List Nat) :
    ∀ (l : List Bool) (j : Nat),
      (ps.foldl (fun o k => o.set k false) l).getD j false = true →
      l.getD j false = true := by
  induction ps with
  | nil => intro l j h; exact h
  | cons p ps ih =>
    intro l j h
    rw [List.foldl_cons] at h
    exact set_false_getD_mono l p j (ih _ _ h)

/-- Cells cleared by `world_carve_path_to_origin`, in the order the C code
clears them: the start cell `idx`, then the `while (x > 0)` loop (columns
`x-1` down to `0` on row `y`), then the `while (y > 0)` loop (rows `y-1`
down to `0` on column `0`). -/
def carve_positions (W idx : Nat) : List Nat :=
  idx :: (((List.range (idx % W)).reverse).map (fun x' => (idx / W) * W + x')) ++
    (((List.range (idx / W)).reverse).map (fun y' => y' * W))

/-- Carve an axis-aligned corridor back to the origin,
`world_carve_path_to_origin` from `world.c` (guards as in the source). -/
def world_carve_path_to_origin (w : world_t) (idx : Nat) : world_t :=
  if w.size.width = 0 then w
  else if w.size.height = 0 then w
  else if world_cell_count w ≤ idx then w
  else
    { w with obstacles :=
        (carve_positions w.size.width idx).foldl (fun o k => o.set k false) w.obstacles }

theorem carve_positions_lt (W idx n : Nat) (hW : 0 < W) (hidx : idx < n) :
    ∀ c ∈ carve_positions W idx, c < n := by
  intro c hc
  unfold carve_positions at hc
  rcases List.mem_cons.1 hc with h | h
  · omega
  · have hdm : idx / W * W + idx % W = idx := Nat.div_add_mod' idx W
    rcases List.mem_append.1 h with h' | h'
    · rcases List.mem_map.1 h' with ⟨x', hx', rfl⟩
      have hx'lt : x' < idx % W := by
        have := List.mem_reverse.1 hx'
        exact List.mem_range.1 this
      omega
    · rcases List.mem_map.1 h' with ⟨y', hy', rfl⟩
      have hy'lt : y' < idx / W := by
        have := List.mem_reverse.1 hy'
        exact List.mem_range.1 this
      have : y' * W < (idx / W) * W :=
        (Nat.mul_lt_mul_right hW).2 hy'lt
      omega

theorem zero_mem_carve_positions (W idx : Nat) (hW : 0 < W) :
    0 ∈ carve_positions W idx := by
  unfold carve_positions
  by_cases hy : 0 < idx / W
  · refine List.mem_cons.2 (Or.inr (List.mem_append.2 (Or.inr ?_)))
    exact List.mem_map.2 ⟨0, List.mem_reverse.2 (List.mem_range.2 hy), by simp⟩
  · by_cases hx : 0 < idx % W
    · refine List.mem_cons.2 (Or.inr (List.mem_append.2 (Or.inl ?_)))
      refine List.mem_map.2 ⟨0, List.mem_reverse.2 (List.mem_range.2 hx), ?_⟩
      have h1 : idx / W = 0 := Nat.eq_zero_of_not_pos hy
      simp [h1]
    · have hdm : idx / W * W + idx % W = idx := Nat.div_add_mod' idx W
      have h1 : idx / W = 0 := Nat.eq_zero_of_not_pos hy
      have h2 : idx % W = 0 := Nat.eq_zero_of_not_pos hx
      rw [h1, h2] at hdm
      simp only [Nat.zero_mul, Nat.add_zero] at hdm
      exact List.mem_cons.2 (Or.inl hdm)

theorem row_mem_carve_positions (W idx x' : Nat) (hx' : x' < idx % W) :
    (idx / W) * W + x' ∈ carve_positions W idx := by
  unfold carve_positions
  refine List.mem_cons.2 (Or.inr (List.mem_append.2 (Or.inl ?_)))
  exact List.mem_map.2 ⟨x', List.mem_reverse.2 (List.mem_range.2 hx'), rfl⟩

theorem col_mem_carve_positions (W idx y' : Nat) (hy' : y' < idx / W) :
    y' * W ∈ carve_positions W idx := by
  unfold carve_positions
  refine List.mem_cons.2 (Or.inr (List.mem_append.2 (Or.inr ?_)))
  exact List.mem_map.2 ⟨y', List.mem_reverse.2 (List.mem_range.2 hy'), rfl⟩

theorem div_lt_height (w : world_t) (idx : Nat) (hW : 0 < w.size.width)
    (hidx : idx < world_cell_count w) : idx / w.size.width < w.size.height := by
  by_contra hcon
  have h1 : w.size.height * w.size.width ≤ idx / w.size.width * w.size.width :=
    Nat.mul_le_mul_right _ (by omega)
  have h2 : idx / w.size.width * w.size.width ≤ idx := Nat.div_mul_le_self idx _
  unfold world_cell_count at hidx
  have h3 : w.size.width * w.size.height ≤ idx := by
    calc w.size.width * w.size.height = w.size.height * w.size.width := Nat.mul_comm _ _
    _ ≤ idx / w.size.width * w.size.width := h1
    _ ≤ idx := h2
  omega

theorem neighbor_col (w : world_t) (y' : Nat) (hW : 0 < w.size.width)
    (hy : y' + 1 < w.size.height) :
    (y' + 1) * w.size.width ∈ bfs_neighbors w (y' * w.size.width) := by
  unfold bfs_neighbors
  apply List.mem_filterMap.2
  refine ⟨(0, 1), by simp [kNeighborDirs], ?_⟩
  simp only
  have hx : (y' * w.size.width) % w.size.width = 0 := Nat.mul_mod_left _ _
  have hyv : (y' * w.size.width) / w.size.width = y' := Nat.mul_div_cancel y' hW
  rw [hx, hyv]
  have hb : world_in_bounds w (((0 : Nat) : Int) + 0) (((y' : Nat) : Int) + 1) = true := by
    unfold world_in_bounds
    simp only [Bool.and_eq_true, decide_eq_true_eq]
    refine ⟨⟨⟨by omega, by omega⟩, ?_⟩, ?_⟩
    · push_cast
      exact_mod_cast hW
    · push_cast
      exact_mod_cast hy
  rw [if_pos hb]
  congr 1

theorem neighbor_row (w : world_t) (y x' : Nat) (hW : 0 < w.size.width)
    (hx : x' + 1 < w.size.width) (hy : y < w.size.height) :
    y * w.size.width + (x' + 1) ∈ bfs_neighbors w (y * w.size.width + x') := by
  unfold bfs_neighbors
  apply List.mem_filterMap.2
  refine ⟨(1, 0), by simp [kNeighborDirs], ?_⟩
  simp only
  have hmod : (y * w.size.width + x') % w.size.width = x' := by
    rw [Nat.mul_comm y w.size.width, Nat.mul_add_mod]
    exact Nat.mod_eq_of_lt (by omega)
  have hdiv : (y * w.size.width + x') / w.size.width = y := by
    rw [Nat.mul_comm y w.size.width, Nat.mul_add_div hW]
    rw [Nat.div_eq_of_lt (by omega)]
    omega
  rw [hmod, hdiv]
  have hb : world_in_bounds w (((x' : Nat) : Int) + 1) (((y : Nat) : Int) + 0) = true := by
    unfold world_in_bounds
    simp only [Bool.and_eq_true, decide_eq_true_eq]
    refine ⟨⟨⟨by omega, by omega⟩, ?_⟩, ?_⟩
    · push_cast
      exact_mod_cast hx
    · push_cast
      exact_mod_cast hy
  rw [if_pos hb]
  congr 1

theorem corridor_reachable (w : world_t) (idx : Nat)
    (hW : 0 < w.size.width) (hidx : idx < world_cell_count w)
    (hall : ∀ c ∈ carve_positions w.size.width idx,
      w.obstacles.getD c false = false) :
    grid_reachable w idx := by
  have hH : idx / w.size.width < w.size.height := div_lt_height w idx hW hidx
  have hdm : idx / w.size.width * w.size.width + idx % w.size.width = idx :=
    Nat.div_add_mod' idx w.size.width
  have hmod : idx % w.size.width < w.size.width := Nat.mod_lt _ hW
  have hfree_of_mem : ∀ c ∈ carve_positions w.size.width idx,
      w.obstacles.getD c false = false := hall
  have hn0 : 0 < world_cell_count w := by omega
  have hvert : ∀ y', y' ≤ idx / w.size.width →
      grid_reachable w (y' * w.size.width) := by
    intro y'
    induction y' with
    | zero =>
      intro _
      have h0 : grid_reachable w 0 :=
        grid_reachable.origin ⟨hn0, hfree_of_mem 0 (zero_mem_carve_positions _ _ hW)⟩
      simpa using h0
    | succ y' ih =>
      intro hle
      have hr := ih (by omega)
      have hfree : w.obstacles.getD ((y' + 1) * w.size.width) false = false := by
        by_cases hcase : y' + 1 < idx / w.size.width
        · exact hfree_of_mem _ (col_mem_carve_positions _ _ _ hcase)
        · have hy_eq : y' + 1 = idx / w.size.width := by omega
          by_cases hx0 : 0 < idx % w.size.width
          · have hmem := row_mem_carve_positions w.size.width idx 0 hx0
            rw [Nat.add_zero] at hmem
            rw [hy_eq]
            exact hfree_of_mem _ hmem
          · have hxz : idx % w.size.width = 0 := by omega
            have : (y' + 1) * w.size.width = idx := by
              rw [hy_eq]
              omega
            rw [this]
            exact hfree_of_mem _ (List.mem_cons.2 (Or.inl rfl))
      exact grid_reachable.step _ _ hr
        (neighbor_col w y' hW (by omega)) hfree
  have hhorz : ∀ x', x' ≤ idx % w.size.width →
      grid_reachable w (idx / w.size.width * w.size.width + x') := by
    intro x'
    induction x' with
    | zero =>
      intro _
      rw [Nat.add_zero]
      exact hvert _ le_rfl
    | succ x' ih =>
      intro hle
      have hr := ih (by omega)
      have hfree : w.obstacles.getD
          (idx / w.size.width * w.size.width + (x' + 1)) false = false := by
        by_cases hcase : x' + 1 < idx % w.size.width
        · exact hfree_of_mem _ (row_mem_carve_positions _ _ _ hcase)
        · have hx_eq : x' + 1 = idx % w.size.width := by omega
          have : idx / w.size.width * w.size.width + (x' + 1) = idx := by
            rw [hx_eq]
            exact hdm
          rw [this]
          exact hfree_of_mem _ (List.mem_cons.2 (Or.inl rfl))
      exact grid_reachable.step _ _ hr
        (neighbor_row w (idx / w.size.width) x' hW (by omega) hH) hfree
  have hfin := hhorz (idx % w.size.width) le_rfl
  rw [hdm] at hfin
  exact hfin

/-- The scan of `world_enforce_origin_reachability`'s inner `for` loop: first
cell that is free but not marked reachable (the C loop carves it and breaks). -/
def first_unreachable_free (w : world_t) (R : Finset Nat) : Option Nat :=
  (List.range (world_cell_count w)).find? (fun i =>
    !(w.obstacles.getD i false) && !(decide (i ∈ R)))

theorem carve_preserves (w : world_t) (i : Nat) :
    (world_carve_path_to_origin w i).size = w.size ∧
    (world_carve_path_to_origin w i).kind = w.kind ∧
    (world_carve_path_to_origin w i).obstacles.length = w.obstacles.length ∧
    ((world_carve_path_to_origin w i).obstacles.getD 0 false = true →
      w.obstacles.getD 0 false = true) := by
  unfold world_carve_path_to_origin
  split
  · exact ⟨rfl, rfl, rfl, fun h => h⟩
  · split
    · exact ⟨rfl, rfl, rfl, fun h => h⟩
    · split
      · exact ⟨rfl, rfl, rfl, fun h => h⟩
      · refine ⟨rfl, rfl, ?_, ?_⟩
        · exact length_foldl_set_false _ _
        · exact set_false_getD_mono_foldl _ _ _

theorem first_unreachable_some (w : world_t) (i : Nat)
    (h : first_unreachable_free w (world_mark_reachable w) = some i) :
    i < world_cell_count w ∧ w.obstacles.getD i false = false ∧
      i ∉ world_mark_reachable w := by
  unfold first_unreachable_free at h
  have hmem := List.mem_range.1 (List.mem_of_find?_eq_some h)
  have hp := List.find?_some h
  simp only [Bool.and_eq_true, Bool.not_eq_true', decide_eq_true_eq] at hp
  refine ⟨hmem, hp.1, ?_⟩
  intro hc
  have := hp.2
  simp [hc] at this

theorem carve_decreases_count (w : world_t)
    (hlen : w.obstacles.length = world_cell_count w)
    (i : Nat) (hfb : first_unreachable_free w (world_mark_reachable w) = some i) :
    (world_carve_path_to_origin w i).obstacles.count true < w.obstacles.count true := by
  obtain ⟨hi, hfree, hnm⟩ := first_unreachable_some w i hfb
  have hW : 0 < w.size.width := by
    by_contra h
    have hw0 : w.size.width = 0 := by omega
    unfold world_cell_count at hi
    rw [hw0, Nat.zero_mul] at hi
    omega
  have hH : 0 < w.size.height := by
    by_contra h
    have hh0 : w.size.height = 0 := by omega
    unfold world_cell_count at hi
    rw [hh0, Nat.mul_zero] at hi
    omega
  have hblocked : ∃ j ∈ carve_positions w.size.width i,
      w.obstacles.getD j false = true := by
    by_contra hcon
    push_neg at hcon
    have hallfree : ∀ c ∈ carve_positions w.size.width i,
        w.obstacles.getD c false = false := by
      intro c hc
      have := hcon c hc
      revert this
      cases w.obstacles.getD c false <;> simp
    exact hnm (mark_reachable_complete w i (corridor_reachable w i hW hi hallfree))
  obtain ⟨j, hjmem, hjtrue⟩ := hblocked
  have hjlt : j < world_cell_count w := carve_positions_lt _ _ _ hW hi j hjmem
  unfold world_carve_path_to_origin
  rw [if_neg (by omega), if_neg (by omega), if_neg (by omega)]
  exact count_foldl_set_false_lt _ _ j hjmem (by omega) hjtrue

/-- The `do { flood fill; carve first unreachable free cell } while (fixed_any)`
loop of `world_enforce_origin_reachability`, with explicit fuel. Each carve
removes at least one obstacle, so `count true + 1` rounds always reach the
fixpoint. -/
def enforce_loop : Nat → world_t → world_t
  | 0, w => w
  | fuel + 1, w =>
    match first_unreachable_free w (world_mark_reachable w) with
    | none => w
    | some i => enforce_loop fuel (world_carve_path_to_origin w i)

/-- Reachability repair, `world_enforce_origin_reachability` from `world.c`. -/
def world_enforce_origin_reachability (w : world_t) : world_t :=
  enforce_loop (w.obstacles.count true + 1) w

theorem enforce_loop_spec : ∀ (fuel : Nat) (w : world_t),
    w.obstacles.length = world_cell_count w →
    w.obstacles.count true < fuel →
    (enforce_loop fuel w).size = w.size ∧
    (enforce_loop fuel w).kind = w.kind ∧
    (enforce_loop fuel w).obstacles.length = world_cell_count w ∧
    ((enforce_loop fuel w).obstacles.getD 0 false = true →
      w.obstacles.getD 0 false = true) ∧
    first_unreachable_free (enforce_loop fuel w)
      (world_mark_reachable (enforce_loop fuel w)) = none := by
  intro fuel
  induction fuel with
  | zero =>
    intro w _ h
    omega
  | succ fuel ih =>
    intro w hlen hcount
    rw [enforce_loop]
    rcases hfb : first_unreachable_free w (world_mark_reachable w) with _ | i
    · exact ⟨rfl, rfl, hlen, fun h => h, hfb⟩
    · have hdec := carve_decreases_count w hlen i hfb
      obtain ⟨hs, hk, hl, h0⟩ := carve_preserves w i
      have hcell : world_cell_count (world_carve_path_to_origin w i) =
          world_cell_count w := by
        unfold world_cell_count
        rw [hs]
      obtain ⟨j1, j2, j3, j4, j5⟩ := ih (world_carve_path_to_origin w i)
        (by rw [hl, hcell]; exact hlen) (by omega)
      refine ⟨j1.trans hs, j2.trans hk, by rw [j3, hcell], fun h => h0 (j4 h), j5⟩

theorem none_imp_marked (w : world_t)
    (h : first_unreachable_free w (world_mark_reachable w) = none) :
    ∀ i, i < world_cell_count w → w.obstacles.getD i false = false →
      i ∈ world_mark_reachable w := by
  intro i hi hfree
  unfold first_unreachable_free at h
  have hp := List.find?_eq_none.1 h i (List.mem_range.2 hi)
  simp only [Bool.and_eq_true, Bool.not_eq_true', decide_eq_true_eq, not_and] at hp
  by_contra hc
  have := hp hfree
  simp [hc] at this

/-- The deterministic obstacle LCG, `lcg_next` from `world.c`
(`state * 1103515245 + 12345 + 1013904223`, 32-bit wrapping). -/
def lcg_next (s : Nat) : Nat :=
  (s * 1103515245 + 12345 + 1013904223) % U32_MOD

/-- The generation loop of `world_generate_obstacles`: one LCG draw per cell,
blocked iff `draw % 100 < percent`. -/
def gen_obstacles_list : Nat → Nat → Nat → List Bool
  | 0, _, _ => []
  | k + 1, s, pct =>
    decide (lcg_next s % 100 < pct) :: gen_obstacles_list k (lcg_next s) pct

theorem gen_obstacles_list_length (k : Nat) :
    ∀ s pct, (gen_obstacles_list k s pct).length = k := by
  induction k with
  | zero => intro s pct; rfl
  | succ k ih =>
    intro s pct
    show (gen_obstacles_list k (lcg_next s) pct).length + 1 = k + 1
    rw [ih]

/-- Obstacle generation, `world_generate_obstacles` from `world.c`: clamp
`percent` to `[0, 100]`, fill every cell from the LCG keyed by `seed`, force
the origin free, then run the reachability repair. -/
def world_generate_obstacles (w : world_t) (percent : Int) (seed : Nat) : world_t :=
  let pct : Int := if percent < 0 then 0 else if 100 < percent then 100 else percent
  let obst := gen_obstacles_list (world_cell_count w) seed pct.toNat
  let obst1 := if 0 < world_cell_count w then obst.set 0 false else obst
  world_enforce_origin_reachability { w with obstacles := obst1 }

theorem generate_spec_aux (w : world_t) (percent : Int) (seed : Nat)
    (hn : 0 < world_cell_count w) :
    (world_generate_obstacles w percent seed).obstacles.getD 0 false = false ∧
    ∀ i, i < world_cell_count w →
      (world_generate_obstacles w percent seed).obstacles.getD i false = false →
      grid_reachable (world_generate_obstacles w percent seed) i := by
  simp only [world_generate_obstacles, world_enforce_origin_reachability]
  rw [if_pos hn]
  generalize (if percent < 0 then (0 : Int)
    else if 100 < percent then 100 else percent).toNat = pct
  generalize hL : (gen_obstacles_list (world_cell_count w) seed pct).set 0 false = L
  have hLlen : L.length = world_cell_count w := by
    rw [← hL, List.length_set, gen_obstacles_list_length]
  have hw0len : (({ w with obstacles := L } : world_t)).obstacles.length =
      world_cell_count ({ w with obstacles := L } : world_t) := hLlen
  have h00 : L.getD 0 false = false := by
    rw [← hL, List.getD_eq_getElem _ false
      (by rw [List.length_set, gen_obstacles_list_length]; omega)]
    simp [List.getElem_set]
  obtain ⟨j1, j2, j3, j4, j5⟩ := enforce_loop_spec (L.count true + 1)
    ({ w with obstacles := L }) hw0len
    (by show L.count true < L.count true + 1; omega)
  constructor
  · by_contra hcon
    have htrue : (enforce_loop (L.count true + 1)
        ({ w with obstacles := L } : world_t)).obstacles.getD 0 false = true := by
      revert hcon
      cases (enforce_loop (L.count true + 1)
        ({ w with obstacles := L } : world_t)).obstacles.getD 0 false <;> simp
    have := j4 htrue
    rw [show (({ w with obstacles := L } : world_t)).obstacles = L from rfl, h00] at this
    exact absurd this (by simp)
  · intro i hi hfree
    have hcc : world_cell_count (enforce_loop (L.count true + 1)
        ({ w with obstacles := L } : world_t)) = world_cell_count w := by
      unfold world_cell_count
      rw [j1]
    exact mark_reachable_sound _ _
      (none_imp_marked _ j5 i (by rw [hcc]; exact hi) hfree)

/-- C6: `world_generate_obstacles` is a deterministic function of
`(kind, W, H, percent, seed)` — two worlds agreeing on kind and size yield
identical results, obstacle map included — and afterwards the origin is free
and every free cell is reachable from the origin by 4-connected moves through
free cells (the carve-and-re-BFS repair loop reaches its fixpoint). -/
theorem C6_world_generate_obstacles (w1 w2 : world_t) (percent : Int) (seed : Nat)
    (hk : w1.kind = w2.kind) (hs : w1.size = w2.size) :
    world_generate_obstacles w1 percent seed = world_generate_obstacles w2 percent seed
  ∧ (0 < world_cell_count w1 →
      (world_generate_obstacles w1 percent seed).obstacles.getD 0 false = false)
  ∧ (∀ i, i < world_cell_count w1 →
      (world_generate_obstacles w1 percent seed).obstacles.getD i false = false →
      grid_reachable (world_generate_obstacles w1 percent seed) i) := by
  have hcell : world_cell_count w1 = world_cell_count w2 := by
    unfold world_cell_count
    rw [hs]
  refine ⟨?_, ?_, ?_⟩
  · simp only [world_generate_obstacles]
    rw [hk, hs, hcell]
  · intro h
    exact (generate_spec_aux w1 percent seed h).1
  · intro i hi
    have hn : 0 < world_cell_count w1 := by omega
    exact (generate_spec_aux w1 percent seed hn).2 i hi

/-- Witness for C6: on a concrete 2×2 OBSTACLES world, generation with 10%
obstacles and seed 12345 (the parameters CREATE_SIM uses) leaves the origin
free. -/
theorem C6_world_generate_obstacles_witness :
    (world_generate_obstacles
      { kind := world_kinds_t.WORLD_OBSTACLES, size := { width := 2, height := 2 },
        obstacles := [false, false, false, false] }
      10 12345).obstacles.getD 0 false = false :=
  (C6_world_generate_obstacles
    { kind := world_kinds_t.WORLD_OBSTACLES, size := { width := 2, height := 2 },
      obstacles := [false, false, false, false] }
    { kind := world_kinds_t.WORLD_OBSTACLES, size := { width := 2, height := 2 },
      obstacles := [false, false, false, false] }
    10 12345 rfl rfl).2.1 (by decide)

/-! Snapshot streaming, from `src/server/snapshot_sender.c`. The message
sends are modelled as the emitted message list (the no-failure trace; on a
send failure the C code aborts the stream for that client). -/

/-- Maximum chunk payload, `RW_SNAPSHOT_CHUNK_MAX` from `protocol.h`. -/
def RW_SNAPSHOT_CHUNK_MAX : Nat := 4096

/-- One `rw_snapshot_chunk_t` message body. -/
structure rw_snapshot_chunk_t where
  snapshot_id : Nat
  field : Nat
  offset_bytes : Nat
  data_len : Nat
  data : List Nat
  deriving DecidableEq, Repr

/-- The `while (offset < total_bytes)` loop of `send_field_chunks`, slicing
one field into chunks of at most `RW_SNAPSHOT_CHUNK_MAX` bytes. The loop
advances `offset` by at least one byte per iteration, so `total_bytes`
rounds of fuel always suffice (and with exhausted fuel the guard below is
false anyway). -/
def send_field_chunks_loop (snapshot_id field : Nat) (data : List Nat)
    (total_bytes : Nat) : Nat → Nat → List rw_snapshot_chunk_t
  | 0, _ => []
  | fuel + 1, offset =>
    if offset < total_bytes then
      let remaining := total_bytes - offset
      let to_copy := if remaining < RW_SNAPSHOT_CHUNK_MAX then remaining
        else RW_SNAPSHOT_CHUNK_MAX
      { snapshot_id := snapshot_id, field := field, offset_bytes := offset,
        data_len := to_copy, data := (data.drop offset).take to_copy } ::
        send_field_chunks_loop snapshot_id field data total_bytes fuel (offset + to_copy)
    else []

/-- `send_field_chunks`: emit one field as consecutive chunks from offset 0. -/
def send_field_chunks (snapshot_id field : Nat) (data : List Nat)
    (total_bytes : Nat) : List rw_snapshot_chunk_t :=
  send_field_chunks_loop snapshot_id field data total_bytes total_bytes 0

/-- Consecutive coverage of the byte range `[o, N)` by a chunk list: each
chunk starts exactly where the previous one ended, is non-empty, and the
list ends exactly at `N`. -/
def chunks_cover : Nat → Nat → List rw_snapshot_chunk_t → Prop
  | o, N, [] => o = N
  | o, N, c :: cs => c.offset_bytes = o ∧ 0 < c.data_len ∧
      chunks_cover (o + c.data_len) N cs

theorem send_field_chunks_loop_cover (snapshot_id field : Nat) (data : List Nat)
    (total_bytes : Nat) :
    ∀ fuel offset, total_bytes - offset ≤ fuel → offset ≤ total_bytes →
      chunks_cover offset total_bytes
        (send_field_chunks_loop snapshot_id field data total_bytes fuel offset) := by
  intro fuel
  induction fuel with
  | zero =>
    intro offset hfuel hle
    show chunks_cover offset total_bytes []
    show offset = total_bytes
    omega
  | succ fuel ih =>
    intro offset hfuel hle
    rw [send_field_chunks_loop]
    by_cases hlt : offset < total_bytes
    · rw [if_pos hlt]
      have hpos : 0 < (if total_bytes - offset < RW_SNAPSHOT_CHUNK_MAX
          then total_bytes - offset else RW_SNAPSHOT_CHUNK_MAX) := by
        simp only [RW_SNAPSHOT_CHUNK_MAX]
        split <;> omega
      have hbound : (if total_bytes - offset < RW_SNAPSHOT_CHUNK_MAX
          then total_bytes - offset else RW_SNAPSHOT_CHUNK_MAX) ≤ total_bytes - offset := by
        simp only [RW_SNAPSHOT_CHUNK_MAX]
        split <;> omega
      refine ⟨rfl, hpos, ?_⟩
      dsimp only
      exact ih _ (by omega) (by omega)
    · rw [if_neg hlt]
      show offset = total_bytes
      omega

theorem send_field_chunks_loop_len_le (snapshot_id field : Nat) (data : List Nat)
    (total_bytes : Nat) :
    ∀ fuel offset, ∀ c ∈ send_field_chunks_loop snapshot_id field data
        total_bytes fuel offset,
      c.data_len ≤ RW_SNAPSHOT_CHUNK_MAX := by
  intro fuel
  induction fuel with
  | zero =>
    intro offset c hc
    exact absurd hc (by simp [send_field_chunks_loop])
  | succ fuel ih =>
    intro offset c hc
    rw [send_field_chunks_loop] at hc
    by_cases hlt : offset < total_bytes
    · rw [if_pos hlt] at hc
      rcases List.mem_cons.1 hc with h | h
      · subst h
        show (if total_bytes - offset < RW_SNAPSHOT_CHUNK_MAX
          then total_bytes - offset else RW_SNAPSHOT_CHUNK_MAX) ≤ RW_SNAPSHOT_CHUNK_MAX
        split <;> omega
      · exact ih _ c h
    · rw [if_neg hlt] at hc
      exact absurd hc (by simp)


/-- Chunks produced by the slicing loop all carry the field id they were
called with. -/
theorem send_field_chunks_loop_field (snapshot_id field : Nat) (data : List Nat)
    (total_bytes : Nat) :
    ∀ fuel offset, ∀ c ∈ send_field_chunks_loop snapshot_id field data
        total_bytes fuel offset,
      c.field = field := by
  intro fuel
  induction fuel with
  | zero =>
    intro offset c hc
    exact absurd hc (by simp [send_field_chunks_loop])
  | succ fuel ih =>
    intro offset c hc
    rw [send_field_chunks_loop] at hc
    by_cases hlt : offset < total_bytes
    · rw [if_pos hlt] at hc
      rcases List.mem_cons.1 hc with h | h
      · subst h
        rfl
      · exact ih _ c h
    · rw [if_neg hlt] at hc
      exact absurd hc (by simp)

theorem send_field_chunks_field (snapshot_id field : Nat) (data : List Nat)
    (total_bytes : Nat) :
    ∀ c ∈ send_field_chunks snapshot_id field data total_bytes, c.field = field :=
  fun c hc =>
    send_field_chunks_loop_field snapshot_id field data total_bytes total_bytes 0 c hc

/-- Snapshot field identifiers (`rw_snapshot_field_t`, protocol.h). -/
def RW_SNAP_FIELD_OBSTACLES : Nat := 1

def RW_SNAP_FIELD_TRIALS : Nat := 2

def RW_SNAP_FIELD_SUM_STEPS : Nat := 3

def RW_SNAP_FIELD_SUCC_LEQ_K : Nat := 4

/-- Wire world kinds (`rw_wire_world_kinds_t`, protocol.h). -/
def RW_WIRE_WORLD_WRAP : Nat := 1

def RW_WIRE_WORLD_OBSTACLES : Nat := 2

/-- `field_bit` from snapshot_sender.c: bitmask bit for a field id. -/
def field_bit (field : Nat) : Nat :=
  if field = 0 then 0 else 2 ^ (field - 1)

/-- Payload of a SNAPSHOT_BEGIN message (`rw_snapshot_begin_t`). -/
structure rw_snapshot_begin_t where
  snapshot_id : Nat
  width : Nat
  height : Nat
  world_kind : Nat
  cell_count : Nat
  included_fields : Nat
  deriving DecidableEq, Repr

/-- The three message kinds emitted during one snapshot stream. -/
inductive rw_snapshot_msg where
  | begin_msg : rw_snapshot_begin_t → rw_snapshot_msg
  | chunk_msg : rw_snapshot_chunk_t → rw_snapshot_msg
  | end_msg : rw_snapshot_msg
  deriving DecidableEq, Repr

/-- Little-endian byte serialisation of a uint32_t counter (the C code
reinterprets the counter arrays as byte buffers via the uint8_t cast). -/
def u32le_bytes (v : Nat) : List Nat :=
  [v % 256, v / 2 ^ 8 % 256, v / 2 ^ 16 % 256, v / 2 ^ 24 % 256]

/-- Little-endian byte serialisation of a uint64_t counter. -/
def u64le_bytes (v : Nat) : List Nat :=
  [v % 256, v / 2 ^ 8 % 256, v / 2 ^ 16 % 256, v / 2 ^ 24 % 256,
   v / 2 ^ 32 % 256, v / 2 ^ 40 % 256, v / 2 ^ 48 % 256, v / 2 ^ 56 % 256]

/-- `send_snapshot_to_client` from snapshot_sender.c, as the emitted message
list on the no-failure path: BEGIN, then the four fields chunked in order
(obstacles as 1 byte/cell, trials as 4, sum_steps as 8, success_leq_k as 4),
then END. -/
def send_snapshot_to_client (snapshot_id : Nat) (world : world_t)
    (results : results_t) : List rw_snapshot_msg :=
  rw_snapshot_msg.begin_msg
    { snapshot_id := snapshot_id
      width := world.size.width
      height := world.size.height
      world_kind := if world.kind = world_kinds_t.WORLD_OBSTACLES
        then RW_WIRE_WORLD_OBSTACLES else RW_WIRE_WORLD_WRAP
      cell_count := world.size.width * world.size.height
      included_fields :=
        Nat.lor (Nat.lor (Nat.lor (field_bit RW_SNAP_FIELD_OBSTACLES)
          (field_bit RW_SNAP_FIELD_TRIALS)) (field_bit RW_SNAP_FIELD_SUM_STEPS))
          (field_bit RW_SNAP_FIELD_SUCC_LEQ_K) } ::
  ((send_field_chunks snapshot_id RW_SNAP_FIELD_OBSTACLES
      (world.obstacles.map (fun b => if b then 1 else 0))
      (world.size.width * world.size.height * 1)).map rw_snapshot_msg.chunk_msg ++
   (send_field_chunks snapshot_id RW_SNAP_FIELD_TRIALS
      ((results_trials results).flatMap u32le_bytes)
      (world.size.width * world.size.height * 4)).map rw_snapshot_msg.chunk_msg ++
   (send_field_chunks snapshot_id RW_SNAP_FIELD_SUM_STEPS
      ((results_sum_steps results).flatMap u64le_bytes)
      (world.size.width * world.size.height * 8)).map rw_snapshot_msg.chunk_msg ++
   (send_field_chunks snapshot_id RW_SNAP_FIELD_SUCC_LEQ_K
      ((results_success_leq_k results).flatMap u32le_bytes)
      (world.size.width * world.size.height * 4)).map rw_snapshot_msg.chunk_msg ++
   [rw_snapshot_msg.end_msg])

/-- The chunk messages of one field between the BEGIN and END of a stream. -/
def snapshot_field_chunks : List rw_snapshot_msg → Nat → List rw_snapshot_chunk_t
  | [], _ => []
  | rw_snapshot_msg.chunk_msg c :: rest, f =>
      if c.field = f then c :: snapshot_field_chunks rest f
      else snapshot_field_chunks rest f
  | _ :: rest, f => snapshot_field_chunks rest f

theorem snapshot_field_chunks_append (a b : List rw_snapshot_msg) (f : Nat) :
    snapshot_field_chunks (a ++ b) f =
      snapshot_field_chunks a f ++ snapshot_field_chunks b f := by
  induction a with
  | nil => simp [snapshot_field_chunks]
  | cons m rest ih =>
    cases m with
    | begin_msg bb => simpa [snapshot_field_chunks] using ih
    | chunk_msg c =>
      simp only [List.cons_append, snapshot_field_chunks, ih]
      by_cases h : c.field = f
      · rw [if_pos h, if_pos h, List.cons_append, List.append_eq, ih]
      · rw [if_neg h, if_neg h, List.append_eq, ih]
    | end_msg => simpa [snapshot_field_chunks] using ih

theorem snapshot_field_chunks_map (f g : Nat) :
    ∀ l : List rw_snapshot_chunk_t, (∀ c ∈ l, c.field = g) →
      snapshot_field_chunks (l.map rw_snapshot_msg.chunk_msg) f =
        if g = f then l else [] := by
  intro l
  induction l with
  | nil =>
    intro _
    simp [snapshot_field_chunks]
  | cons c cs ih =>
    intro h
    have hc : c.field = g := h c (List.mem_cons_self c cs)
    have hrest := ih (fun x hx => h x (List.mem_cons_of_mem c hx))
    simp only [List.map_cons, snapshot_field_chunks, hc, hrest]
    by_cases hgf : g = f
    · simp [hgf]
    · simp [hgf]

/-- Exactly which chunks of the emitted stream carry field id `f`: for each
of the four field codes, the whole output of its `send_field_chunks` call. -/
theorem snapshot_field_chunks_stream (snapshot_id : Nat) (world : world_t)
    (results : results_t) (f : Nat) :
    snapshot_field_chunks (send_snapshot_to_client snapshot_id world results) f =
      (if RW_SNAP_FIELD_OBSTACLES = f then
        send_field_chunks snapshot_id RW_SNAP_FIELD_OBSTACLES
          (world.obstacles.map (fun b => if b then 1 else 0))
          (world.size.width * world.size.height * 1) else []) ++
      (if RW_SNAP_FIELD_TRIALS = f then
        send_field_chunks snapshot_id RW_SNAP_FIELD_TRIALS
          ((results_trials results).flatMap u32le_bytes)
          (world.size.width * world.size.height * 4) else []) ++
      (if RW_SNAP_FIELD_SUM_STEPS = f then
        send_field_chunks snapshot_id RW_SNAP_FIELD_SUM_STEPS
          ((results_sum_steps results).flatMap u64le_bytes)
          (world.size.width * world.size.height * 8) else []) ++
      (if RW_SNAP_FIELD_SUCC_LEQ_K = f then
        send_field_chunks snapshot_id RW_SNAP_FIELD_SUCC_LEQ_K
          ((results_success_leq_k results).flatMap u32le_bytes)
          (world.size.width * world.size.height * 4) else []) := by
  show snapshot_field_chunks (rw_snapshot_msg.begin_msg _ :: _) f = _
  rw [show ∀ (b : rw_snapshot_begin_t) (rest : List rw_snapshot_msg),
      snapshot_field_chunks (rw_snapshot_msg.begin_msg b :: rest) f =
        snapshot_field_chunks rest f from fun _ _ => rfl]
  rw [snapshot_field_chunks_append, snapshot_field_chunks_append,
    snapshot_field_chunks_append, snapshot_field_chunks_append]
  rw [snapshot_field_chunks_map f RW_SNAP_FIELD_OBSTACLES _
    (send_field_chunks_field snapshot_id RW_SNAP_FIELD_OBSTACLES
      (world.obstacles.map (fun b => if b then 1 else 0))
      (world.size.width * world.size.height * 1))]
  rw [snapshot_field_chunks_map f RW_SNAP_FIELD_TRIALS _
    (send_field_chunks_field snapshot_id RW_SNAP_FIELD_TRIALS
      ((results_trials results).flatMap u32le_bytes)
      (world.size.width * world.size.height * 4))]
  rw [snapshot_field_chunks_map f RW_SNAP_FIELD_SUM_STEPS _
    (send_field_chunks_field snapshot_id RW_SNAP_FIELD_SUM_STEPS
      ((results_sum_steps results).flatMap u64le_bytes)
      (world.size.width * world.size.height * 8))]
  rw [snapshot_field_chunks_map f RW_SNAP_FIELD_SUCC_LEQ_K _
    (send_field_chunks_field snapshot_id RW_SNAP_FIELD_SUCC_LEQ_K
      ((results_success_leq_k results).flatMap u32le_bytes)
      (world.size.width * world.size.height * 4))]
  rw [show snapshot_field_chunks [rw_snapshot_msg.end_msg] f = [] from rfl,
    List.append_nil]

/-- C9: for every snapshot and every included field of byte length N, every
SNAPSHOT_CHUNK emitted for that field between SNAPSHOT_BEGIN and
SNAPSHOT_END has data_len ≤ RW_SNAPSHOT_CHUNK_MAX = 4096, and the
(offset_bytes, data_len) ranges are consecutive with no gap and no overlap,
covering exactly [0, N): stated generically for `send_field_chunks` and for
each of the four fields of the stream emitted by `send_snapshot_to_client`
(byte lengths cell_count·1, ·4, ·8, ·4). -/
theorem C9_snapshot_chunk_coverage (snapshot_id : Nat) (world : world_t)
    (results : results_t) :
    (∀ (field : Nat) (data : List Nat) (total_bytes : Nat),
        (∀ c ∈ send_field_chunks snapshot_id field data total_bytes,
            c.data_len ≤ RW_SNAPSHOT_CHUNK_MAX) ∧
        chunks_cover 0 total_bytes (send_field_chunks snapshot_id field data total_bytes)) ∧
    chunks_cover 0 (world.size.width * world.size.height * 1)
      (snapshot_field_chunks (send_snapshot_to_client snapshot_id world results)
        RW_SNAP_FIELD_OBSTACLES) ∧
    chunks_cover 0 (world.size.width * world.size.height * 4)
      (snapshot_field_chunks (send_snapshot_to_client snapshot_id world results)
        RW_SNAP_FIELD_TRIALS) ∧
    chunks_cover 0 (world.size.width * world.size.height * 8)
      (snapshot_field_chunks (send_snapshot_to_client snapshot_id world results)
        RW_SNAP_FIELD_SUM_STEPS) ∧
    chunks_cover 0 (world.size.width * world.size.height * 4)
      (snapshot_field_chunks (send_snapshot_to_client snapshot_id world results)
        RW_SNAP_FIELD_SUCC_LEQ_K) ∧
    (∀ (f : Nat) (c : rw_snapshot_chunk_t),
        c ∈ snapshot_field_chunks (send_snapshot_to_client snapshot_id world results) f →
        c.data_len ≤ RW_SNAPSHOT_CHUNK_MAX) := by
  have hgen : ∀ (field : Nat) (data : List Nat) (total_bytes : Nat),
      (∀ c ∈ send_field_chunks snapshot_id field data total_bytes,
          c.data_len ≤ RW_SNAPSHOT_CHUNK_MAX) ∧
      chunks_cover 0 total_bytes (send_field_chunks snapshot_id field data total_bytes) := by
    intro field data total_bytes
    constructor
    · exact send_field_chunks_loop_len_le snapshot_id field data total_bytes total_bytes 0
    · exact send_field_chunks_loop_cover snapshot_id field data total_bytes total_bytes 0
        (by omega) (by omega)
  refine ⟨hgen, ?_, ?_, ?_, ?_, ?_⟩
  · rw [snapshot_field_chunks_stream]
    rw [if_pos rfl, if_neg (by decide), if_neg (by decide), if_neg (by decide)]
    simp only [List.append_nil, List.nil_append]
    exact (hgen _ _ _).2
  · rw [snapshot_field_chunks_stream]
    rw [if_neg (by decide), if_pos rfl, if_neg (by decide), if_neg (by decide)]
    simp only [List.append_nil, List.nil_append]
    exact (hgen _ _ _).2
  · rw [snapshot_field_chunks_stream]
    rw [if_neg (by decide), if_neg (by decide), if_pos rfl, if_neg (by decide)]
    simp only [List.append_nil, List.nil_append]
    exact (hgen _ _ _).2
  · rw [snapshot_field_chunks_stream]
    rw [if_neg (by decide), if_neg (by decide), if_neg (by decide), if_pos rfl]
    simp only [List.append_nil, List.nil_append]
    exact (hgen _ _ _).2
  · intro f c hc
    rw [snapshot_field_chunks_stream] at hc
    rcases List.mem_append.1 hc with h123 | h4
    · rcases List.mem_append.1 h123 with h12 | h3
      · rcases List.mem_append.1 h12 with h1 | h2
        · revert h1
          split
          · intro h1
            exact (hgen _ _ _).1 c h1
          · intro h1
            exact absurd h1 (List.not_mem_nil c)
        · revert h2
          split
          · intro h2
            exact (hgen _ _ _).1 c h2
          · intro h2
            exact absurd h2 (List.not_mem_nil c)
      · revert h3
        split
        · intro h3
          exact (hgen _ _ _).1 c h3
        · intro h3
          exact absurd h3 (List.not_mem_nil c)
    · revert h4
      split
      · intro h4
        exact (hgen _ _ _).1 c h4
      · intro h4
        exact absurd h4 (List.not_mem_nil c)

/-- Concrete instance of C9: on a 1×1 world the single obstacles chunk is
within the 4096-byte bound, discharging the membership hypothesis of the
final conjunct at explicit inputs. -/
theorem C9_snapshot_chunk_coverage_witness :
    ({ snapshot_id := 7, field := 1, offset_bytes := 0, data_len := 1,
       data := [0] } : rw_snapshot_chunk_t).data_len ≤ RW_SNAPSHOT_CHUNK_MAX :=
  (C9_snapshot_chunk_coverage 7
      { kind := world_kinds_t.WORLD_WRAP, size := { width := 1, height := 1 },
        obstacles := [false] }
      { size := { width := 1, height := 1 }, cell_count := 1,
        trials := [0], sum_steps := [0], success_leq_k := [0] }).2.2.2.2.2 1
    { snapshot_id := 7, field := 1, offset_bytes := 0, data_len := 1, data := [0] }
    (by decide)

/-! Server control plane, from `src/server/server_ipc.c` (second, current
version of the file), `src/server/server_context.c`, `src/server/persist.c`
and `sim_manager.c`. File IO is an oracle `Nat → Option persist_file_t`
mapping a path id to the parsed file (none = unreadable or bad header);
only well-formed file bodies are modelled — a file whose body is shorter
than its header promises makes the C loaders fail midway, and no claim
below concerns failed loads. The mutexed accessors of server_context.c are
plain field reads/writes here (per-request atomicity). -/

/-- Wire simulation states (`rw_wire_sim_state_t`, protocol.h). -/
def RW_WIRE_SIM_LOBBY : Nat := 1

def RW_WIRE_SIM_RUNNING : Nat := 2

def RW_WIRE_SIM_FINISHED : Nat := 3

/-- Request message type codes used for ACK payloads (protocol.h). -/
def RW_MSG_STOP_SIM : Nat := 9

def RW_MSG_CREATE_SIM : Nat := 13

def RW_MSG_LOAD_WORLD : Nat := 14

def RW_MSG_START_SIM : Nat := 15

def RW_MSG_REQUEST_SNAPSHOT : Nat := 16

def RW_MSG_RESTART_SIM : Nat := 17

def RW_MSG_LOAD_RESULTS : Nat := 18

def RW_MSG_SAVE_RESULTS : Nat := 19

def RW_MSG_QUIT : Nat := 20

/-- `server_context_t` (server_context.h): base configuration plus runtime
state. `owner_fd` is an int with -1 meaning unset. -/
structure server_context_t where
  world_kind : world_kinds_t
  world_size : world_size_t
  probs : move_probs_t
  k_max_steps : Nat
  total_reps : Nat
  sim_state : Nat
  current_rep : Nat
  global_mode : Nat
  multi_user : Bool
  owner_fd : Int
  deriving DecidableEq, Repr

/-- `server_context_client_can_control` (server_context.c): with no owner
set anyone may control; otherwise only the owner fd, in both the
single-user and the multi-user branch. -/
def server_context_client_can_control (ctx : server_context_t)
    (client_fd : Int) : Bool :=
  if ctx.owner_fd < 0 then true
  else if ctx.multi_user = false then decide (client_fd = ctx.owner_fd)
  else decide (client_fd = ctx.owner_fd)

/-- `world_init` (world.c): reject a zero dimension, else an all-free grid. -/
def world_init (kind : world_kinds_t) (size : world_size_t) : Option world_t :=
  if size.width = 0 ∨ size.height = 0 then none
  else some { kind := kind
              size := size
              obstacles := List.replicate (size.width * size.height) false }

/-- The mutable flags of `sim_manager_t` (sim_manager.c) visible to the
control plane. -/
structure sim_manager_t where
  running : Bool
  stop_requested : Bool
  deriving DecidableEq, Repr

/-- The server-side globals of server_ipc.c: shared context plus the
`g_world` / `g_results` / `g_sm` handles (none = NULL). -/
structure server_globals_t where
  ctx : server_context_t
  world : Option world_t
  results : Option results_t
  sm : Option sim_manager_t
  deriving DecidableEq, Repr

/-- Parsed content of a results/world file (persist.c wire format):
header fields then the four per-cell arrays. -/
structure persist_file_t where
  world_kind : Nat
  width : Nat
  height : Nat
  probs : move_probs_t
  k_max_steps : Nat
  total_reps : Nat
  obstacles : List Bool
  trials : List Nat
  sum_steps : List Nat
  success_leq_k : List Nat
  deriving DecidableEq, Repr

/-- `persist_load_world` (persist.c): re-init the world to the file
dimensions, read the obstacle array, and overwrite the context base
config from the file header. -/
def persist_load_world (file : Option persist_file_t)
    (ctx : server_context_t) : Option (world_t × server_context_t) :=
  match file with
  | none => none
  | some f =>
    let wk := if f.world_kind = 2 then world_kinds_t.WORLD_OBSTACLES
      else world_kinds_t.WORLD_WRAP
    match world_init wk { width := f.width, height := f.height } with
    | none => none
    | some w0 =>
      if f.obstacles.length = f.width * f.height then
        some ({ w0 with obstacles := f.obstacles },
          { ctx with world_kind := wk
                     world_size := { width := f.width, height := f.height }
                     probs := f.probs
                     k_max_steps := f.k_max_steps
                     total_reps := f.total_reps })
      else none

/-- `persist_load_results` (persist.c): re-init world and results to the
file dimensions, read all four arrays, and overwrite the context base
config from the file header. -/
def persist_load_results (file : Option persist_file_t)
    (ctx : server_context_t) :
    Option (world_t × results_t × server_context_t) :=
  match file with
  | none => none
  | some f =>
    let wk := if f.world_kind = 2 then world_kinds_t.WORLD_OBSTACLES
      else world_kinds_t.WORLD_WRAP
    match world_init wk { width := f.width, height := f.height } with
    | none => none
    | some w0 =>
      match results_init { width := f.width, height := f.height } with
      | none => none
      | some r0 =>
        if f.obstacles.length = f.width * f.height ∧
            f.trials.length = f.width * f.height ∧
            f.sum_steps.length = f.width * f.height ∧
            f.success_leq_k.length = f.width * f.height then
          some ({ w0 with obstacles := f.obstacles },
            { r0 with trials := f.trials
                      sum_steps := f.sum_steps
                      success_leq_k := f.success_leq_k },
            { ctx with world_kind := wk
                       world_size := { width := f.width, height := f.height }
                       probs := f.probs
                       k_max_steps := f.k_max_steps
                       total_reps := f.total_reps })
        else none

/-- `sim_manager_start` (sim_manager.c) together with the prologue of the
spawned `sim_thread_main`: refuse when already running, else set the
running flag, move the context to RUNNING with progress 0, and clear the
aggregate (the sim thread clears results at start of the run). -/
def sim_manager_start (sm : sim_manager_t) (ctx : server_context_t)
    (results : Option results_t) :
    Option (sim_manager_t × server_context_t × Option results_t) :=
  if sm.running then none
  else some ({ sm with running := true, stop_requested := false },
    { ctx with sim_state := RW_WIRE_SIM_RUNNING, current_rep := 0 },
    Option.map results_clear results)

/-- `sim_manager_restart` (sim_manager.c): refuse when running or with zero
repetitions, else install the new repetition count, reset progress and
state to LOBBY, and start. -/
def sim_manager_restart (sm : sim_manager_t) (total_reps : Nat)
    (ctx : server_context_t) (results : Option results_t) :
    Option (sim_manager_t × server_context_t × Option results_t) :=
  if sm.running then none
  else if total_reps = 0 then none
  else sim_manager_start sm
    { ctx with total_reps := total_reps
               current_rep := 0
               sim_state := RW_WIRE_SIM_LOBBY } results

/-- `rw_create_sim_t` request payload (protocol.h). -/
structure rw_create_sim_t where
  multi_user : Bool
  world_kind : Nat
  size : world_size_t
  probs : move_probs_t
  k_max_steps : Nat
  total_reps : Nat
  deriving DecidableEq, Repr

/-- The client requests handled by `client_thread` (server_ipc.c); file
paths are opaque ids resolved by the IO oracle. -/
inductive rw_request where
  | set_global_mode (new_mode : Nat) : rw_request
  | query_status : rw_request
  | create_sim (req : rw_create_sim_t) : rw_request
  | load_world (path : Nat) (multi_user : Bool) : rw_request
  | start_sim : rw_request
  | restart_sim (total_reps : Nat) : rw_request
  | stop_sim : rw_request
  | request_snapshot : rw_request
  | save_results (path : Nat) : rw_request
  | load_results (path : Nat) : rw_request
  | quit (stop_if_owner : Bool) : rw_request
  deriving DecidableEq, Repr

/-- `rw_status_t` payload of a STATUS reply. -/
structure rw_status_t where
  state : Nat
  multi_user : Bool
  can_control : Bool
  world_kind : Nat
  size : world_size_t
  probs : move_probs_t
  k_max_steps : Nat
  total_reps : Nat
  current_rep : Nat
  global_mode : Nat
  deriving DecidableEq, Repr

/-- The direct reply sent to the requesting client (asynchronous
broadcasts are modelled separately): an ACK, an ERROR with code and
message, a STATUS payload, or nothing (SET_GLOBAL_MODE sends no direct
reply). -/
inductive rw_reply where
  | ack (req_type : Nat) (status : Nat) : rw_reply
  | error (code : Nat) (msg : String) : rw_reply
  | status (st : rw_status_t) : rw_reply
  | no_reply : rw_reply
  deriving DecidableEq, Repr

/-- One request of the `client_thread` loop (server_ipc.c, second version):
guards, error codes and mutations in source order. `read` is the file
oracle, `save_ok` the outcome of `persist_save_results`, `snapshot_ok` the
outcome of `snapshot_broadcast`. -/
def client_handle_request (read : Nat → Option persist_file_t)
    (save_ok snapshot_ok : Bool) (g : server_globals_t) (client_fd : Int) :
    rw_request → server_globals_t × rw_reply
  | rw_request.set_global_mode new_mode =>
    ({ g with ctx := { g.ctx with global_mode := new_mode } }, rw_reply.no_reply)
  | rw_request.query_status =>
    (g, rw_reply.status
      { state := g.ctx.sim_state
        multi_user := g.ctx.multi_user
        can_control := server_context_client_can_control g.ctx client_fd
        world_kind := if g.ctx.world_kind = world_kinds_t.WORLD_OBSTACLES
          then RW_WIRE_WORLD_OBSTACLES else RW_WIRE_WORLD_WRAP
        size := g.ctx.world_size
        probs := g.ctx.probs
        k_max_steps := g.ctx.k_max_steps
        total_reps := g.ctx.total_reps
        current_rep := g.ctx.current_rep
        global_mode := g.ctx.global_mode })
  | rw_request.create_sim req =>
    if server_context_client_can_control g.ctx client_fd = false then
      (g, rw_reply.error 1 "Permission denied")
    else if g.ctx.sim_state = RW_WIRE_SIM_RUNNING then
      (g, rw_reply.error 2 "Simulation already running")
    else if req.size.width = 0 ∨ req.size.height = 0 ∨ req.total_reps = 0 ∨
        req.k_max_steps = 0 then
      (g, rw_reply.error 3 "Invalid parameters")
    else if req.probs.p_up + req.probs.p_down + req.probs.p_left +
          req.probs.p_right < (999 : ℚ) / 1000 ∨
        (1001 : ℚ) / 1000 < req.probs.p_up + req.probs.p_down +
          req.probs.p_left + req.probs.p_right then
      (g, rw_reply.error 4 "Probabilities must sum to 1")
    else
      let ctx1 := { g.ctx with
        multi_user := req.multi_user
        world_kind := if req.world_kind = RW_WIRE_WORLD_OBSTACLES
          then world_kinds_t.WORLD_OBSTACLES else world_kinds_t.WORLD_WRAP
        world_size := req.size
        probs := req.probs
        k_max_steps := req.k_max_steps
        total_reps := req.total_reps
        current_rep := 0 }
      match g.world with
      | some _ =>
        (match world_init ctx1.world_kind ctx1.world_size with
        | none => ({ g with ctx := ctx1 }, rw_reply.error 5 "world_init failed")
        | some w1 =>
          let w2 := if ctx1.world_kind = world_kinds_t.WORLD_OBSTACLES
            then world_generate_obstacles w1 10 12345 else w1
          match g.results with
          | some _ =>
            (match results_init ctx1.world_size with
            | none => ({ g with ctx := ctx1, world := some w2 },
                rw_reply.error 6 "results_init failed")
            | some r1 =>
              ({ g with ctx := { ctx1 with sim_state := RW_WIRE_SIM_LOBBY }
                        world := some w2
                        results := some r1 },
                rw_reply.ack RW_MSG_CREATE_SIM 0))
          | none =>
            ({ g with ctx := { ctx1 with sim_state := RW_WIRE_SIM_LOBBY }
                      world := some w2 },
              rw_reply.ack RW_MSG_CREATE_SIM 0))
      | none =>
        match g.results with
        | some _ =>
          (match results_init ctx1.world_size with
          | none => ({ g with ctx := ctx1 },
              rw_reply.error 6 "results_init failed")
          | some r1 =>
            ({ g with ctx := { ctx1 with sim_state := RW_WIRE_SIM_LOBBY }
                      results := some r1 },
              rw_reply.ack RW_MSG_CREATE_SIM 0))
        | none =>
          ({ g with ctx := { ctx1 with sim_state := RW_WIRE_SIM_LOBBY } },
            rw_reply.ack RW_MSG_CREATE_SIM 0)
  | rw_request.load_world path multi_user =>
    if server_context_client_can_control g.ctx client_fd = false then
      (g, rw_reply.error 1 "Permission denied")
    else if g.ctx.sim_state = RW_WIRE_SIM_RUNNING then
      (g, rw_reply.error 2 "Simulation already running")
    else
      let ctx1 := { g.ctx with multi_user := multi_user }
      match g.world with
      | none => ({ g with ctx := ctx1 },
          rw_reply.error 7 "Server world handle not set")
      | some _ =>
        match persist_load_world (read path) ctx1 with
        | none => ({ g with ctx := ctx1 },
            rw_reply.error 8 "Failed to load world file")
        | some (w1, ctx2) =>
          match g.results with
          | some _ =>
            (match results_init ctx2.world_size with
            | none => ({ g with ctx := ctx2, world := some w1 },
                rw_reply.error 6 "results_init failed")
            | some r1 =>
              ({ g with ctx := { ctx2 with sim_state := RW_WIRE_SIM_LOBBY }
                        world := some w1
                        results := some r1 },
                rw_reply.ack RW_MSG_LOAD_WORLD 0))
          | none =>
            ({ g with ctx := { ctx2 with sim_state := RW_WIRE_SIM_LOBBY }
                      world := some w1 },
              rw_reply.ack RW_MSG_LOAD_WORLD 0)
  | rw_request.start_sim =>
    if server_context_client_can_control g.ctx client_fd = false then
      (g, rw_reply.error 1 "Permission denied")
    else
      match g.sm with
      | none => (g, rw_reply.error 9 "Server sim_manager not set")
      | some sm =>
        if g.ctx.sim_state = RW_WIRE_SIM_RUNNING then
          (g, rw_reply.error 2 "Simulation already running")
        else
          match sim_manager_start sm g.ctx g.results with
          | none => (g, rw_reply.error 10 "Failed to start simulation")
          | some (sm1, ctx1, r1) =>
            ({ g with ctx := ctx1, results := r1, sm := some sm1 },
              rw_reply.ack RW_MSG_START_SIM 0)
  | rw_request.restart_sim total_reps =>
    if server_context_client_can_control g.ctx client_fd = false then
      (g, rw_reply.error 1 "Permission denied")
    else
      match g.sm with
      | none => (g, rw_reply.error 9 "Server sim_manager not set")
      | some sm =>
        if g.ctx.sim_state = RW_WIRE_SIM_RUNNING then
          (g, rw_reply.error 2 "Simulation running; stop first")
        else if total_reps = 0 then
          (g, rw_reply.error 3 "Invalid repetitions")
        else
          match sim_manager_restart sm total_reps g.ctx g.results with
          | none => (g, rw_reply.error 10 "Failed to restart simulation")
          | some (sm1, ctx1, r1) =>
            ({ g with ctx := ctx1, results := r1, sm := some sm1 },
              rw_reply.ack RW_MSG_RESTART_SIM 0)
  | rw_request.stop_sim =>
    if server_context_client_can_control g.ctx client_fd = false then
      (g, rw_reply.error 1 "Permission denied")
    else
      match g.sm with
      | some sm =>
        ({ g with sm := some { sm with stop_requested := true } },
          rw_reply.ack RW_MSG_STOP_SIM 0)
      | none => (g, rw_reply.ack RW_MSG_STOP_SIM 0)
  | rw_request.request_snapshot =>
    match g.world, g.results with
    | some _, some _ =>
      if snapshot_ok = false then
        (g, rw_reply.error 12 "Snapshot send failed")
      else (g, rw_reply.ack RW_MSG_REQUEST_SNAPSHOT 0)
    | _, _ => (g, rw_reply.error 11 "Snapshot unavailable")
  | rw_request.save_results _ =>
    if server_context_client_can_control g.ctx client_fd = false then
      (g, rw_reply.error 1 "Permission denied")
    else
      match g.world, g.results with
      | some _, some _ =>
        if save_ok = false then (g, rw_reply.error 14 "Save failed")
        else (g, rw_reply.ack RW_MSG_SAVE_RESULTS 0)
      | _, _ => (g, rw_reply.error 13 "Nothing to save")
  | rw_request.load_results path =>
    if server_context_client_can_control g.ctx client_fd = false then
      (g, rw_reply.error 1 "Permission denied")
    else
      match g.world, g.results with
      | some _, some _ =>
        (match persist_load_results (read path) g.ctx with
        | none => (g, rw_reply.error 15 "Load failed")
        | some (w1, r1, ctx1) =>
          ({ g with ctx := { ctx1 with sim_state := RW_WIRE_SIM_FINISHED }
                    world := some w1
                    results := some r1 },
            rw_reply.ack RW_MSG_LOAD_RESULTS 0))
      | _, _ => (g, rw_reply.error 7 "Server handles not set")
  | rw_request.quit stop_if_owner =>
    if stop_if_owner ∧ server_context_client_can_control g.ctx client_fd then
      match g.sm with
      | some sm =>
        ({ g with sm := some { sm with stop_requested := true } },
          rw_reply.ack RW_MSG_QUIT 0)
      | none => (g, rw_reply.ack RW_MSG_QUIT 0)
    else (g, rw_reply.ack RW_MSG_QUIT 0)

/-- End of `client_thread` (server_ipc.c): when the owner disconnects the
owner handle is cleared so a later client may gain control. -/
def client_disconnect (g : server_globals_t) (client_fd : Int) :
    server_globals_t :=
  if g.ctx.owner_fd = client_fd then
    { g with ctx := { g.ctx with owner_fd := -1 } }
  else g

/-- Start of `client_thread`: the first client to join while no owner is
set becomes the owner. -/
def client_join (g : server_globals_t) (client_fd : Int) : server_globals_t :=
  if g.ctx.owner_fd < 0 then
    { g with ctx := { g.ctx with owner_fd := client_fd } }
  else g

/-- Which requests pass through the `client_can_control` permission guard
(the seven control requests of the claim). -/
def rw_request_is_control : rw_request → Bool
  | rw_request.create_sim _ => true
  | rw_request.load_world _ _ => true
  | rw_request.start_sim => true
  | rw_request.restart_sim _ => true
  | rw_request.stop_sim => true
  | rw_request.save_results _ => true
  | rw_request.load_results _ => true
  | _ => false

/-- The three simulation-setup requests of the RUNNING-state claim. -/
def rw_request_is_sim_setup : rw_request → Bool
  | rw_request.create_sim _ => true
  | rw_request.start_sim => true
  | rw_request.restart_sim _ => true
  | _ => false

/-- The three requests that re-initialise world/results. -/
def rw_request_is_reinit : rw_request → Bool
  | rw_request.create_sim _ => true
  | rw_request.load_world _ _ => true
  | rw_request.load_results _ => true
  | _ => false

/-- Grid dimensions of a world (for no-resize statements). -/
def world_dims (w : world_t) : world_size_t := w.size

/-- Grid dimensions of an aggregate store. -/
def results_dims (r : results_t) : world_size_t := r.size

theorem sim_manager_start_results (sm : sim_manager_t) (ctx : server_context_t)
    (results : Option results_t) (sm1 : sim_manager_t) (ctx1 : server_context_t)
    (r1 : Option results_t) :
    sim_manager_start sm ctx results = some (sm1, ctx1, r1) →
      r1 = Option.map results_clear results := by
  unfold sim_manager_start
  split
  · intro h
    cases h
  · intro h
    simp only [Option.some.injEq, Prod.mk.injEq] at h
    exact h.2.2.symm

theorem sim_manager_restart_results (sm : sim_manager_t) (total_reps : Nat)
    (ctx : server_context_t) (results : Option results_t)
    (sm1 : sim_manager_t) (ctx1 : server_context_t) (r1 : Option results_t) :
    sim_manager_restart sm total_reps ctx results = some (sm1, ctx1, r1) →
      r1 = Option.map results_clear results := by
  unfold sim_manager_restart
  split
  · intro h
    cases h
  · split
    · intro h
      cases h
    · exact sim_manager_start_results sm _ results sm1 ctx1 r1

theorem results_clear_dims (r : results_t) :
    results_dims (results_clear r) = results_dims r := rfl

/-- Concrete fixture: symmetric quarter probabilities. -/
def probs_quarter : move_probs_t :=
  { p_up := 1/4, p_down := 1/4, p_left := 1/4, p_right := 1/4 }

/-- Concrete fixture: a context in RUNNING state owned by fd 5 on a 1×1
wrap world. -/
def ctx_running : server_context_t :=
  { world_kind := world_kinds_t.WORLD_WRAP
    world_size := { width := 1, height := 1 }
    probs := probs_quarter
    k_max_steps := 1
    total_reps := 1
    sim_state := RW_WIRE_SIM_RUNNING
    current_rep := 0
    global_mode := 1
    multi_user := false
    owner_fd := 5 }

/-- Concrete fixture: server globals in RUNNING state with all handles
wired. -/
def g_running : server_globals_t :=
  { ctx := ctx_running
    world := some { kind := world_kinds_t.WORLD_WRAP
                    size := { width := 1, height := 1 }
                    obstacles := [false] }
    results := some { size := { width := 1, height := 1 }
                      cell_count := 1
                      trials := [0]
                      sum_steps := [0]
                      success_leq_k := [0] }
    sm := some { running := true, stop_requested := false } }

/-- Concrete fixture: a well-formed 2×2 results file. -/
def file_2x2 : persist_file_t :=
  { world_kind := 1
    width := 2
    height := 2
    probs := probs_quarter
    k_max_steps := 1
    total_reps := 1
    obstacles := List.replicate 4 false
    trials := List.replicate 4 0
    sum_steps := List.replicate 4 0
    success_leq_k := List.replicate 4 0 }

/-- C5: while an owner is set, every control request (CREATE_SIM,
LOAD_WORLD, START_SIM, RESTART_SIM, STOP_SIM, SAVE_RESULTS, LOAD_RESULTS)
from a client other than the owner is answered with ERROR code 1
("Permission denied") and mutates nothing; when the owner disconnects the
owner handle is cleared, after which any client can control again. -/
theorem C5_ownership_gate (read : Nat → Option persist_file_t)
    (save_ok snapshot_ok : Bool) (g : server_globals_t) (fd : Int)
    (req : rw_request) (hown : 0 ≤ g.ctx.owner_fd)
    (hne : fd ≠ g.ctx.owner_fd) (hctl : rw_request_is_control req = true) :
    client_handle_request read save_ok snapshot_ok g fd req =
      (g, rw_reply.error 1 "Permission denied") ∧
    (client_disconnect g g.ctx.owner_fd).ctx.owner_fd = -1 ∧
    (∀ fd2 : Int, server_context_client_can_control
      (client_disconnect g g.ctx.owner_fd).ctx fd2 = true) := by
  have hcc : server_context_client_can_control g.ctx fd = false := by
    have hd : decide (fd = g.ctx.owner_fd) = false := decide_eq_false hne
    unfold server_context_client_can_control
    rw [if_neg (by omega)]
    split
    · exact hd
    · exact hd
  refine ⟨?_, ?_, ?_⟩
  · cases req with
    | set_global_mode m => simp [rw_request_is_control] at hctl
    | query_status => simp [rw_request_is_control] at hctl
    | request_snapshot => simp [rw_request_is_control] at hctl
    | quit b => simp [rw_request_is_control] at hctl
    | create_sim r => simp [client_handle_request, hcc]
    | load_world p mu => simp [client_handle_request, hcc]
    | start_sim => simp [client_handle_request, hcc]
    | restart_sim n => simp [client_handle_request, hcc]
    | stop_sim => simp [client_handle_request, hcc]
    | save_results p => simp [client_handle_request, hcc]
    | load_results p => simp [client_handle_request, hcc]
  · simp [client_disconnect]
  · intro fd2
    simp [client_disconnect, server_context_client_can_control]

/-- Concrete instance of C5: with owner fd 5 set, a START_SIM from fd 7 is
rejected with error code 1 and the state is unchanged. -/
theorem C5_ownership_gate_witness :
    client_handle_request (fun _ => none) false false g_running 7
        rw_request.start_sim =
      (g_running, rw_reply.error 1 "Permission denied") :=
  (C5_ownership_gate (fun _ => none) false false g_running 7
    rw_request.start_sim (by decide) (by decide) (by decide)).1

/-- C4 (amended): while sim_state is RUNNING, a CREATE_SIM, START_SIM or
RESTART_SIM request mutates no server state and is always answered with an
ERROR reply, but the code is 2 only when the requester passes the
permission check and (for START/RESTART) the sim-manager handle is wired:
a non-controlling client gets code 1, START/RESTART with an unwired
sim-manager get code 9. -/
theorem C4_running_never_mutates (read : Nat → Option persist_file_t)
    (save_ok snapshot_ok : Bool) (g : server_globals_t) (fd : Int)
    (req : rw_request) (hrun : g.ctx.sim_state = RW_WIRE_SIM_RUNNING)
    (hsetup : rw_request_is_sim_setup req = true) :
    (client_handle_request read save_ok snapshot_ok g fd req).1 = g ∧
    (∃ c msg, (client_handle_request read save_ok snapshot_ok g fd req).2 =
      rw_reply.error c msg) ∧
    (server_context_client_can_control g.ctx fd = false →
      (client_handle_request read save_ok snapshot_ok g fd req).2 =
        rw_reply.error 1 "Permission denied") ∧
    (server_context_client_can_control g.ctx fd = true →
      (∀ r, req = rw_request.create_sim r →
        (client_handle_request read save_ok snapshot_ok g fd req).2 =
          rw_reply.error 2 "Simulation already running") ∧
      (req = rw_request.start_sim →
        (client_handle_request read save_ok snapshot_ok g fd req).2 =
          (if g.sm = none then rw_reply.error 9 "Server sim_manager not set"
           else rw_reply.error 2 "Simulation already running")) ∧
      (∀ n, req = rw_request.restart_sim n →
        (client_handle_request read save_ok snapshot_ok g fd req).2 =
          (if g.sm = none then rw_reply.error 9 "Server sim_manager not set"
           else rw_reply.error 2 "Simulation running; stop first"))) := by
  cases req with
  | set_global_mode m => simp [rw_request_is_sim_setup] at hsetup
  | query_status => simp [rw_request_is_sim_setup] at hsetup
  | request_snapshot => simp [rw_request_is_sim_setup] at hsetup
  | quit b => simp [rw_request_is_sim_setup] at hsetup
  | load_world p mu => simp [rw_request_is_sim_setup] at hsetup
  | stop_sim => simp [rw_request_is_sim_setup] at hsetup
  | save_results p => simp [rw_request_is_sim_setup] at hsetup
  | load_results p => simp [rw_request_is_sim_setup] at hsetup
  | create_sim r =>
    by_cases hcc : server_context_client_can_control g.ctx fd = false
    · refine ⟨?_, ⟨1, "Permission denied", ?_⟩, fun _ => ?_,
        fun hcc2 => absurd hcc2 (by simp [hcc])⟩ <;>
        simp [client_handle_request, hcc]
    · refine ⟨?_, ⟨2, "Simulation already running", ?_⟩,
        fun h => absurd h hcc,
        fun _ => ⟨fun r2 _ => ?_, fun h => by simp at h, fun n h => by simp at h⟩⟩ <;>
        simp [client_handle_request, hcc, hrun]
  | start_sim =>
    by_cases hcc : server_context_client_can_control g.ctx fd = false
    · refine ⟨?_, ⟨1, "Permission denied", ?_⟩, fun _ => ?_,
        fun hcc2 => absurd hcc2 (by simp [hcc])⟩ <;>
        simp [client_handle_request, hcc]
    · cases hsm : g.sm with
      | none =>
        refine ⟨?_, ⟨9, "Server sim_manager not set", ?_⟩,
          fun h => absurd h hcc,
          fun _ => ⟨fun r2 h => by simp at h, fun _ => ?_, fun n h => by simp at h⟩⟩ <;>
          simp [client_handle_request, hcc, hsm]
      | some sm =>
        refine ⟨?_, ⟨2, "Simulation already running", ?_⟩,
          fun h => absurd h hcc,
          fun _ => ⟨fun r2 h => by simp at h, fun _ => ?_, fun n h => by simp at h⟩⟩ <;>
          simp [client_handle_request, hcc, hsm, hrun]
  | restart_sim n0 =>
    by_cases hcc : server_context_client_can_control g.ctx fd = false
    · refine ⟨?_, ⟨1, "Permission denied", ?_⟩, fun _ => ?_,
        fun hcc2 => absurd hcc2 (by simp [hcc])⟩ <;>
        simp [client_handle_request, hcc]
    · cases hsm : g.sm with
      | none =>
        refine ⟨?_, ⟨9, "Server sim_manager not set", ?_⟩,
          fun h => absurd h hcc,
          fun _ => ⟨fun r2 h => by simp at h, fun h => by simp at h, fun n h => ?_⟩⟩ <;>
          simp [client_handle_request, hcc, hsm]
      | some sm =>
        refine ⟨?_, ⟨2, "Simulation running; stop first", ?_⟩,
          fun h => absurd h hcc,
          fun _ => ⟨fun r2 h => by simp at h, fun h => by simp at h, fun n h => ?_⟩⟩ <;>
          simp [client_handle_request, hcc, hsm, hrun]

/-- Refutation of C4 as stated: in the RUNNING state a START_SIM from a
non-owner (owner 5, requester 7) is answered with ERROR code 1, not 2. -/
theorem C4_running_never_mutates_counterexample :
    g_running.ctx.sim_state = RW_WIRE_SIM_RUNNING ∧
    (client_handle_request (fun _ => none) false false g_running 7
        rw_request.start_sim).2 = rw_reply.error 1 "Permission denied" ∧
    (client_handle_request (fun _ => none) false false g_running 7
        rw_request.start_sim).2 ≠
      rw_reply.error 2 "Simulation already running" := by
  refine ⟨rfl, rfl, ?_⟩
  decide

/-- Concrete fixture: a CREATE_SIM payload for a 2×2 obstacle-free world. -/
def create_req_2x2 : rw_create_sim_t :=
  { multi_user := false
    world_kind := 1
    size := { width := 2, height := 2 }
    probs := probs_quarter
    k_max_steps := 5
    total_reps := 3 }

/-- Concrete instance of C4 (amended): in the RUNNING state a CREATE_SIM
from the owner is rejected with code 2 and the state is unchanged. -/
theorem C4_running_never_mutates_witness :
    (client_handle_request (fun _ => none) false false g_running 5
        (rw_request.create_sim create_req_2x2)).1 = g_running ∧
    (client_handle_request (fun _ => none) false false g_running 5
        (rw_request.create_sim create_req_2x2)).2 =
      rw_reply.error 2 "Simulation already running" := by
  have h := C4_running_never_mutates (fun _ => none) false false g_running 5
    (rw_request.create_sim create_req_2x2) rfl (by decide)
  exact ⟨h.1, (h.2.2.2 (by decide)).1 _ rfl⟩

/-- C7 (amended): only CREATE_SIM, LOAD_WORLD and LOAD_RESULTS
re-initialise or resize the world or the aggregate — every other request
preserves both grids' dimensions in every state — and CREATE_SIM and
LOAD_WORLD are guarded against the RUNNING state (they mutate nothing
then); but LOAD_RESULTS has no such guard (see the counterexample) and on
success always moves the state to FINISHED. -/
theorem C7_reinit_only_loaders (read : Nat → Option persist_file_t)
    (save_ok snapshot_ok : Bool) (g : server_globals_t) (fd : Int) :
    (∀ req, rw_request_is_reinit req = false →
      ((client_handle_request read save_ok snapshot_ok g fd req).1.world).map
          world_dims = g.world.map world_dims ∧
      ((client_handle_request read save_ok snapshot_ok g fd req).1.results).map
          results_dims = g.results.map results_dims) ∧
    (g.ctx.sim_state = RW_WIRE_SIM_RUNNING →
      (∀ r, (client_handle_request read save_ok snapshot_ok g fd
        (rw_request.create_sim r)).1 = g) ∧
      (∀ p mu, (client_handle_request read save_ok snapshot_ok g fd
        (rw_request.load_world p mu)).1 = g)) ∧
    (∀ p, (client_handle_request read save_ok snapshot_ok g fd
        (rw_request.load_results p)).2 = rw_reply.ack RW_MSG_LOAD_RESULTS 0 →
      (client_handle_request read save_ok snapshot_ok g fd
        (rw_request.load_results p)).1.ctx.sim_state = RW_WIRE_SIM_FINISHED) := by
  refine ⟨?_, ?_, ?_⟩
  · intro req hreq
    cases req with
    | create_sim r => simp [rw_request_is_reinit] at hreq
    | load_world p mu => simp [rw_request_is_reinit] at hreq
    | load_results p => simp [rw_request_is_reinit] at hreq
    | set_global_mode m => exact ⟨rfl, rfl⟩
    | query_status => exact ⟨rfl, rfl⟩
    | stop_sim =>
      simp only [client_handle_request]
      split
      · exact ⟨rfl, rfl⟩
      · split
        · exact ⟨rfl, rfl⟩
        · exact ⟨rfl, rfl⟩
    | request_snapshot =>
      simp only [client_handle_request]
      split
      · split
        · exact ⟨rfl, rfl⟩
        · exact ⟨rfl, rfl⟩
      · exact ⟨rfl, rfl⟩
    | save_results p =>
      simp only [client_handle_request]
      split
      · exact ⟨rfl, rfl⟩
      · split
        · split
          · exact ⟨rfl, rfl⟩
          · exact ⟨rfl, rfl⟩
        · exact ⟨rfl, rfl⟩
    | quit b =>
      simp only [client_handle_request]
      split
      · split
        · exact ⟨rfl, rfl⟩
        · exact ⟨rfl, rfl⟩
      · exact ⟨rfl, rfl⟩
    | start_sim =>
      simp only [client_handle_request]
      split
      · exact ⟨rfl, rfl⟩
      · split
        · exact ⟨rfl, rfl⟩
        · split
          · exact ⟨rfl, rfl⟩
          · split
            · exact ⟨rfl, rfl⟩
            · rename_i sm hsome sm1 ctx1 r1 heq
              have hr := sim_manager_start_results _ _ _ _ _ _ heq
              refine ⟨rfl, ?_⟩
              rw [hr]
              cases g.results with
              | none => rfl
              | some r => rfl
    | restart_sim n =>
      simp only [client_handle_request]
      split
      · exact ⟨rfl, rfl⟩
      · split
        · exact ⟨rfl, rfl⟩
        · split
          · exact ⟨rfl, rfl⟩
          · split
            · exact ⟨rfl, rfl⟩
            · split
              · exact ⟨rfl, rfl⟩
              · rename_i sm hsome hnr hn0 sm1 ctx1 r1 heq
                have hr := sim_manager_restart_results _ _ _ _ _ _ _ heq
                refine ⟨rfl, ?_⟩
                rw [hr]
                cases g.results with
                | none => rfl
                | some r => rfl
  · intro hrun
    constructor
    · intro r
      simp only [client_handle_request]
      split
      · rfl
      · rfl
    · intro p mu
      simp only [client_handle_request]
      split
      · rfl
      · rfl
  · intro p
    simp only [client_handle_request]
    split
    · intro h
      exact absurd h (by simp)
    · split
      · split
        · intro h
          exact absurd h (by simp)
        · intro _
          rfl
      · intro h
        exact absurd h (by simp)

/-- Refutation of C7 as stated: LOAD_RESULTS has no RUNNING-state guard —
issued by the owner while sim_state = RUNNING against a 1×1 world, with a
well-formed 2×2 results file, it succeeds (ACK) and resizes the world and
the aggregate from 1×1 to 2×2. -/
theorem C7_reinit_only_loaders_counterexample :
    g_running.ctx.sim_state = RW_WIRE_SIM_RUNNING ∧
    g_running.world.map world_dims = some { width := 1, height := 1 } ∧
    (client_handle_request (fun _ => some file_2x2) false false g_running 5
        (rw_request.load_results 0)).2 = rw_reply.ack RW_MSG_LOAD_RESULTS 0 ∧
    ((client_handle_request (fun _ => some file_2x2) false false g_running 5
        (rw_request.load_results 0)).1.world).map world_dims =
      some { width := 2, height := 2 } ∧
    ((client_handle_request (fun _ => some file_2x2) false false g_running 5
        (rw_request.load_results 0)).1.results).map results_dims =
      some { width := 2, height := 2 } := by
  refine ⟨rfl, rfl, ?_, ?_, ?_⟩ <;> decide

/-- Concrete instance of C7 (amended): a STOP_SIM request resizes neither
grid, discharging the non-reinit hypothesis at an explicit input. -/
theorem C7_reinit_only_loaders_witness :
    ((client_handle_request (fun _ => none) false false g_running 5
        rw_request.stop_sim).1.world).map world_dims =
      g_running.world.map world_dims :=
  ((C7_reinit_only_loaders (fun _ => none) false false g_running 5).1
    rw_request.stop_sim (by decide)).1

/-! Asynchronous notification sends. `rw_send_msg` (protocol.c) writes with
blocking IO — on a socket whose send buffer is full the broadcasting
thread suspends; `rw_send_msg_noblock` (contract in protocol.h: uses
MSG_DONTWAIT and returns -1 on EAGAIN/EWOULDBLOCK) instead fails
immediately, dropping the notification for that client. A client socket is
modelled by its fd and whether a send on it would currently block. -/

/-- Outcome of sending one notification to one client socket. -/
inductive send_outcome where
  | delivered : send_outcome
  | blocked : send_outcome
  | dropped : send_outcome
  deriving DecidableEq, Repr

/-- A connected client socket: fd plus whether its buffer is full. -/
structure client_sock_t where
  fd : Nat
  would_block : Bool
  deriving DecidableEq, Repr

/-- The notification messages broadcast outside the request/reply path. -/
inductive notify_msg where
  | progress (current_rep total_reps : Nat) : notify_msg
  | sim_end (reason : Nat) : notify_msg
  | global_mode_changed (new_mode changed_by_pid : Nat) : notify_msg
  deriving DecidableEq, Repr

/-- `rw_send_msg` (protocol.c): blocking write. -/
def rw_send_msg (s : client_sock_t) (m : notify_msg) : send_outcome :=
  if s.would_block then send_outcome.blocked else send_outcome.delivered

/-- `rw_send_msg_noblock` (protocol.h contract): best-effort write, fails
instead of blocking. -/
def rw_send_msg_noblock (s : client_sock_t) (m : notify_msg) : send_outcome :=
  if s.would_block then send_outcome.dropped else send_outcome.delivered

/-- `send_progress_fn` (sim_manager.c): the PROGRESS broadcast callback
sends with the blocking `rw_send_msg`. -/
def send_progress_fn (s : client_sock_t) (current_rep total_reps : Nat) :
    send_outcome :=
  rw_send_msg s (notify_msg.progress current_rep total_reps)

/-- `send_end_fn` (server_ipc.c): the END broadcast callback sends with
`rw_send_msg_noblock`. -/
def send_end_fn (s : client_sock_t) (reason : Nat) : send_outcome :=
  rw_send_msg_noblock s (notify_msg.sim_end reason)

/-- `send_global_mode_changed` (server_ipc.c): the GLOBAL_MODE_CHANGED
broadcast callback sends with `rw_send_msg_noblock`. -/
def send_global_mode_changed (s : client_sock_t)
    (new_mode changed_by_pid : Nat) : send_outcome :=
  rw_send_msg_noblock s (notify_msg.global_mode_changed new_mode changed_by_pid)

/-- `broadcast_progress` (sim_manager.c): per-client outcomes of a PROGRESS
broadcast over the client set. -/
def broadcast_progress (clients : List client_sock_t)
    (current_rep total_reps : Nat) : List (Nat × send_outcome) :=
  clients.map (fun s => (s.fd, send_progress_fn s current_rep total_reps))

/-- `broadcast_end_msg` (server_ipc.c): per-client outcomes of an END
broadcast over the client set. -/
def broadcast_end_msg (clients : List client_sock_t) (reason : Nat) :
    List (Nat × send_outcome) :=
  clients.map (fun s => (s.fd, send_end_fn s reason))

/-- `broadcast_global_mode_changed` (server_ipc.c): per-client outcomes of
a GLOBAL_MODE_CHANGED broadcast over the client set. -/
def broadcast_global_mode_changed (clients : List client_sock_t)
    (new_mode changed_by_pid : Nat) : List (Nat × send_outcome) :=
  clients.map (fun s => (s.fd, send_global_mode_changed s new_mode changed_by_pid))

/-- C8 (amended): the END and GLOBAL_MODE_CHANGED broadcasts use the
best-effort non-blocking send — a would-block client gets the message
dropped and never suspends the broadcasting thread — but the PROGRESS
broadcast callback uses the blocking `rw_send_msg`, so a slow client
suspends the simulation loop instead of having the update dropped. -/
theorem C8_broadcast_send_variants (s : client_sock_t)
    (current_rep total_reps reason new_mode pid : Nat) :
    send_end_fn s reason ≠ send_outcome.blocked ∧
    send_global_mode_changed s new_mode pid ≠ send_outcome.blocked ∧
    (s.would_block = true →
      send_end_fn s reason = send_outcome.dropped ∧
      send_global_mode_changed s new_mode pid = send_outcome.dropped ∧
      send_progress_fn s current_rep total_reps = send_outcome.blocked) ∧
    (s.would_block = false →
      send_end_fn s reason = send_outcome.delivered ∧
      send_global_mode_changed s new_mode pid = send_outcome.delivered ∧
      send_progress_fn s current_rep total_reps = send_outcome.delivered) := by
  cases hs : s.would_block <;>
    simp [send_end_fn, send_global_mode_changed, send_progress_fn,
      rw_send_msg, rw_send_msg_noblock, hs]

/-- Refutation of C8 as stated: a PROGRESS send to a would-block client
(fd 3) blocks the broadcasting thread, where the non-blocking variant
would have dropped the same message. -/
theorem C8_broadcast_send_variants_counterexample :
    send_progress_fn { fd := 3, would_block := true } 1 2 =
      send_outcome.blocked ∧
    rw_send_msg_noblock { fd := 3, would_block := true }
        (notify_msg.progress 1 2) = send_outcome.dropped ∧
    broadcast_progress [{ fd := 3, would_block := true }] 1 2 =
      [(3, send_outcome.blocked)] := by
  refine ⟨rfl, rfl, rfl⟩

/-- Concrete instance of C8 (amended): an END notification to a
would-block client (fd 4) is dropped, not blocked. -/
theorem C8_broadcast_send_variants_witness :
    send_end_fn { fd := 4, would_block := true } 1 = send_outcome.dropped :=
  ((C8_broadcast_send_variants { fd := 4, would_block := true } 1 2 1 1 0).2.2.1
    rfl).1
